import Mathlib

/-!
A verification development for the 4e compendium ingestion pipeline:
`build_compendium_db.py` (payload repair, category normalisation, canonical
store writer), `4e_xml_parser/extract_grants.py` (rule-graph extraction) and
`4e_xml_parser/resolve_compendium_ids.py` (identity resolution).  Python
string/regex operations are embedded as executable Lean functions over
`List Char`; SQLite tables are embedded as association lists; the wall clock
(`datetime.now()` / `CURRENT_TIMESTAMP`) is threaded as an explicit `now`
parameter.
-/

set_option maxRecDepth 100000

namespace Compendium4e

/-! ### Basic Python-flavoured character and string utilities -/

/-- The opening-brace character, by code point. -/
def lbrace : Char := Char.ofNat 123

/-- The closing-brace character, by code point. -/
def rbrace : Char := Char.ofNat 125

/-- Python regex `\s` / `str.strip()` whitespace class for `str`:
space, tab, newline, carriage return, vertical tab, form feed. -/
def isPyWs (c : Char) : Bool :=
  c = ' ' || c = '\t' || c = '\n' || c = '\r' || c = Char.ofNat 11 || c = Char.ofNat 12

/-- ASCII decimal digit test (`str.isdigit` on ASCII input, regex `\d`),
by code point. -/
def isDigitCh (c : Char) : Bool := 48 ≤ c.toNat && c.toNat ≤ 57

/-- ASCII lowercase-letter test, by code point. -/
def isLowerCh (c : Char) : Bool := 97 ≤ c.toNat && c.toNat ≤ 122

/-- ASCII uppercase-letter test, by code point. -/
def isUpperCh (c : Char) : Bool := 65 ≤ c.toNat && c.toNat ≤ 90

/-- Regex `\w` word-character class on lowercased ASCII text:
letters, digits and underscore. -/
def isWordCh (c : Char) : Bool :=
  isLowerCh c || isUpperCh c || isDigitCh c || c = '_'

/-- ASCII lower-casing of one character (`str.lower` on ASCII). -/
def lowerCh (c : Char) : Char :=
  if isUpperCh c then Char.ofNat (c.toNat + 32) else c

/-- ASCII upper-casing of one character (`str.upper` on ASCII). -/
def upperCh (c : Char) : Char :=
  if isLowerCh c then Char.ofNat (c.toNat - 32) else c

/-- Embeds `str.lower()` (ASCII fragment). -/
def pyLower (s : String) : String := String.mk (s.data.map lowerCh)

/-- Embeds `str.upper()` (ASCII fragment). -/
def pyUpper (s : String) : String := String.mk (s.data.map upperCh)

/-- Embeds `str.capitalize()` (ASCII fragment): first character upper-cased,
the rest lower-cased. -/
def pyCapitalize (s : String) : String :=
  match s.data with
  | [] => ""
  | c :: rest => String.mk (upperCh c :: rest.map lowerCh)

/-- Drop leading Python whitespace from a character list. -/
def dropWsL (cs : List Char) : List Char := cs.dropWhile isPyWs

/-- Embeds `str.strip()`: remove leading and trailing Python whitespace. -/
def pyStrip (s : String) : String :=
  String.mk ((dropWsL ((dropWsL s.data.reverse)).reverse))

/-- Embeds `str.rstrip(ch)`: remove all trailing copies of one character. -/
def pyRstripChar (s : String) (ch : Char) : String :=
  String.mk ((s.data.reverse.dropWhile (· = ch)).reverse)

/-- Does `pat` occur as a prefix of `cs`? -/
def prefOf (pat cs : List Char) : Bool := List.isPrefixOf pat cs

/-- Index of the first occurrence of `pat` in `cs` (`str.find`),
`none` when absent.  An empty pattern matches at index 0. -/
def findSubIdx (pat : List Char) : List Char → Option Nat
  | [] => if pat = [] then some 0 else none
  | c :: rest =>
    if prefOf pat (c :: rest) then some 0
    else (findSubIdx pat rest).map (· + 1)

/-- Python `pat in s` substring containment. -/
def containsSub (s pat : String) : Bool := (findSubIdx pat.data s.data).isSome

/-- Embeds `str.replace(pat, "", 1)`: delete the first occurrence of `pat`. -/
def replaceFirst (cs pat : List Char) : List Char :=
  match cs with
  | [] => []
  | c :: rest =>
    if prefOf pat (c :: rest) ∧ pat ≠ [] then (c :: rest).drop pat.length
    else c :: replaceFirst rest pat

/-- Embeds `str.rsplit(sep, 1)` on a one-character separator: split at the last
occurrence, `none` when the separator is absent. -/
def rsplitLast (s : String) (sep : Char) : Option (String × String) :=
  match (s.data.reverse.takeWhile (· ≠ sep)), (s.data.reverse.dropWhile (· ≠ sep)) with
  | after, _ :: before => some (String.mk before.reverse, String.mk after.reverse)
  | _, [] => none

/-- Embeds `str.startswith`. -/
def pyStartsWith (s pat : String) : Bool := prefOf pat.data s.data

/-- Embeds `str.endswith`. -/
def pyEndsWith (s pat : String) : Bool := prefOf pat.data.reverse s.data.reverse

/-- Fuelled worker for `pySplit`: split at each occurrence of the (nonempty)
separator, accumulating the current segment reversed. -/
def splitOnSubF (sep : List Char) : Nat → List Char → List Char → List (List Char)
  | 0, acc, cs => [acc.reverse ++ cs]
  | _, acc, [] => [acc.reverse]
  | fuel + 1, acc, c :: rest =>
    if prefOf sep (c :: rest) ∧ sep ≠ [] then
      acc.reverse :: splitOnSubF sep fuel [] ((c :: rest).drop sep.length)
    else splitOnSubF sep fuel (c :: acc) rest

/-- Python `s.split(sep)` for a nonempty separator. -/
def pySplit (s sep : String) : List String :=
  (splitOnSubF sep.data (s.length + 1) [] s.data).map String.mk

/-- Join strings with a separator (`sep.join(parts)`). -/
def joinWith (sep : String) : List String → String
  | [] => ""
  | [x] => x
  | x :: rest => x ++ sep ++ joinWith sep rest

/-- Numeric value of a nonempty ASCII digit run (`int(...)`). -/
def digitsToNat (ds : List Char) : Nat :=
  ds.foldl (fun acc c => 10 * acc + (c.toNat - 48)) 0

/-- First-match association-list lookup (Python `dict.get` where keys are
unique, or first-wins lookup otherwise). -/
def alookup {α : Type} (l : List (String × α)) (k : String) : Option α :=
  (l.find? (fun kv => kv.1 = k)).map (·.2)

/-- Python `dict` assignment `d[k] = v`: update in place when the key exists
(keeping its position), append otherwise. -/
def aset {α : Type} (l : List (String × α)) (k : String) (v : α) : List (String × α) :=
  if (l.find? (fun kv => kv.1 = k)).isSome then
    l.map (fun kv => if kv.1 = k then (k, v) else kv)
  else l ++ [(k, v)]

theorem dropWhile_len_le {α : Type} (p : α → Bool) :
    ∀ l : List α, (l.dropWhile p).length ≤ l.length := by
  intro l
  induction l with
  | nil => simp [List.dropWhile]
  | cons c rest ih =>
    simp only [List.dropWhile]
    split
    · exact Nat.le_succ_of_le ih
    · simp

/-- Fuelled worker for `squashWs` (each step consumes at least one input
character, so fuel = length + 1 always suffices). -/
def squashWsF : Nat → List Char → List Char
  | 0, cs => cs
  | _, [] => []
  | fuel + 1, c :: rest =>
    if isPyWs c then ' ' :: squashWsF fuel (rest.dropWhile isPyWs)
    else c :: squashWsF fuel rest

/-- Collapse each run of Python whitespace to a single space
(`re.sub(r"\s+", " ", v)`). -/
def squashWs (cs : List Char) : List Char := squashWsF (cs.length + 1) cs

/-! ### Decoded payload values

`Val` embeds the Python values produced by `json.loads` on the 4e payloads
(floats do not occur in the modelled data and are not embedded). -/

inductive Val where
  | vnull : Val
  | vbool : Bool → Val
  | vint : Int → Val
  | vstr : String → Val
  | vlist : List Val → Val
  | vobj : List (String × Val) → Val

mutual

/-- Boolean (structural) equality on decoded values, standing in for the
Python `==` used by dict/primary-key comparisons. -/
def beqVal : Val → Val → Bool
  | .vnull, .vnull => true
  | .vbool a, .vbool b => a == b
  | .vint a, .vint b => a == b
  | .vstr a, .vstr b => a == b
  | .vlist xs, .vlist ys => beqValList xs ys
  | .vobj xs, .vobj ys => beqValObj xs ys
  | _, _ => false

/-- Elementwise equality of value lists. -/
def beqValList : List Val → List Val → Bool
  | [], [] => true
  | x :: xs, y :: ys => beqVal x y && beqValList xs ys
  | _, _ => false

/-- Memberwise equality of dict entries. -/
def beqValObj : List (String × Val) → List (String × Val) → Bool
  | [], [] => true
  | (k1, v1) :: xs, (k2, v2) :: ys => k1 == k2 && beqVal v1 v2 && beqValObj xs ys
  | _, _ => false

end

instance : BEq Val := ⟨beqVal⟩

/-- The apostrophe character used by Python `repr` on strings. -/
def squote : Char := Char.ofNat 39

mutual

/-- Python `str(...)` of a decoded value (string escaping inside nested
`repr` output is not reproduced; the modelled data never needs it). -/
def pyStr : Val → String
  | .vnull => "None"
  | .vbool b => if b then "True" else "False"
  | .vint n => toString n
  | .vstr s => s
  | .vlist xs => "[" ++ pyReprList xs ++ "]"
  | .vobj fs => String.mk [lbrace] ++ pyReprObj fs ++ String.mk [rbrace]

/-- Python `repr(...)` of a decoded value as it appears inside containers. -/
def pyRepr : Val → String
  | .vstr s => String.mk [squote] ++ s ++ String.mk [squote]
  | .vlist xs => "[" ++ pyReprList xs ++ "]"
  | .vobj fs => String.mk [lbrace] ++ pyReprObj fs ++ String.mk [rbrace]
  | v => pyStr v

/-- Comma-separated `repr` of list elements. -/
def pyReprList : List Val → String
  | [] => ""
  | [x] => pyRepr x
  | x :: rest => pyRepr x ++ ", " ++ pyReprList rest

/-- Comma-separated `repr` of dict members. -/
def pyReprObj : List (String × Val) → String
  | [] => ""
  | [(k, v)] => pyRepr (.vstr k) ++ ": " ++ pyRepr v
  | (k, v) :: rest => pyRepr (.vstr k) ++ ": " ++ pyRepr v ++ ", " ++ pyReprObj rest

end

/-- Python truthiness of a decoded value. -/
def pyTruthy : Val → Bool
  | .vnull => false
  | .vbool b => b
  | .vint n => n ≠ 0
  | .vstr s => s ≠ ""
  | .vlist xs => ¬xs.isEmpty
  | .vobj fs => ¬fs.isEmpty

/-! ### Strict JSON decoding (`json.loads`)

The strict first pass of `safe_json_loads` is the standard library's JSON
decoder; it is embedded here as a fuelled recursive-descent parser over the
grammar fragment the payloads use (no floats / exponents). -/

/-- JSON whitespace accepted between tokens by `json.loads`. -/
def isJsonWs (c : Char) : Bool := c = ' ' || c = '\t' || c = '\n' || c = '\r'

/-- Skip JSON inter-token whitespace. -/
def skipJsonWs (cs : List Char) : List Char := cs.dropWhile isJsonWs

/-- Hexadecimal digit value, by code point. -/
def hexVal (c : Char) : Option Nat :=
  let n := c.toNat
  if isDigitCh c then some (n - 48)
  else if 97 ≤ n && n ≤ 102 then some (n - 87)
  else if 65 ≤ n && n ≤ 70 then some (n - 55)
  else none

/-- The single-character escapes `json.loads` accepts after a backslash. -/
def unescapeCh (c : Char) : Option Char :=
  if c = '"' || c = '\\' || c = '/' then some c
  else if c = 'b' then some (Char.ofNat 8)
  else if c = 'f' then some (Char.ofNat 12)
  else if c = 'n' then some (Char.ofNat 10)
  else if c = 'r' then some (Char.ofNat 13)
  else if c = 't' then some (Char.ofNat 9)
  else none

/-- Decode a JSON string body after the opening quote; strict: any other
backslash escape or raw control character is an error. -/
def parseJsonStr : Nat → List Char → Option (List Char × List Char)
  | 0, _ => none
  | _, [] => none
  | fuel + 1, c :: rest =>
    if c = '"' then some ([], rest)
    else if c = '\\' then
      match rest with
      | 'u' :: a :: b :: d :: e :: rest2 =>
        match hexVal a, hexVal b, hexVal d, hexVal e with
        | some va, some vb, some vd, some ve =>
          match parseJsonStr fuel rest2 with
          | some (cs, r) => some (Char.ofNat (((va * 16 + vb) * 16 + vd) * 16 + ve) :: cs, r)
          | none => none
        | _, _, _, _ => none
      | e :: rest2 =>
        match unescapeCh e with
        | some ch =>
          match parseJsonStr fuel rest2 with
          | some (cs, r) => some (ch :: cs, r)
          | none => none
        | none => none
      | [] => none
    else if c.toNat < 32 then none
    else
      match parseJsonStr fuel rest with
      | some (cs, r) => some (c :: cs, r)
      | none => none

/-- Decode a JSON integer token (leading zeros rejected as in `json.loads`;
floats are outside the modelled fragment). -/
def parseJsonInt (cs : List Char) : Option (Val × List Char) :=
  let (neg, cs1) : Bool × List Char :=
    match cs with
    | '-' :: r => (true, r)
    | _ => (false, cs)
  match cs1 with
  | '0' :: rest =>
    if (rest.headD ' ' = '.') || (rest.headD ' ' = 'e') || (rest.headD ' ' = 'E') then none
    else some (.vint (if neg then 0 else 0), rest)
  | c :: _ =>
    if isDigitCh c then
      let ds := cs1.takeWhile isDigitCh
      let rest := cs1.dropWhile isDigitCh
      if (rest.headD ' ' = '.') || (rest.headD ' ' = 'e') || (rest.headD ' ' = 'E') then none
      else
        let n : Int := (digitsToNat ds : Nat)
        some (.vint (if neg then -n else n), rest)
    else none
  | [] => none

mutual

/-- Decode one JSON value (fuelled; fuel bounds the nesting depth). -/
def parseJsonVal : Nat → List Char → Option (Val × List Char)
  | 0, _ => none
  | fuel + 1, cs =>
    match skipJsonWs cs with
    | 'n' :: 'u' :: 'l' :: 'l' :: rest => some (.vnull, rest)
    | 't' :: 'r' :: 'u' :: 'e' :: rest => some (.vbool true, rest)
    | 'f' :: 'a' :: 'l' :: 's' :: 'e' :: rest => some (.vbool false, rest)
    | '"' :: rest =>
      match parseJsonStr (rest.length + 1) rest with
      | some (cs2, r) => some (.vstr (String.mk cs2), r)
      | none => none
    | '[' :: rest =>
      match skipJsonWs rest with
      | ']' :: r2 => some (.vlist [], r2)
      | cs2 =>
        match parseJsonElems fuel cs2 with
        | some (vs, r) => some (.vlist vs, r)
        | none => none
    | c :: rest =>
      if c = lbrace then
        match skipJsonWs rest with
        | c2 :: r2 =>
          if c2 = rbrace then some (.vobj [], r2)
          else
            match parseJsonMembers fuel (c2 :: r2) with
            | some (fs, r) => some (.vobj fs, r)
            | none => none
        | [] => none
      else parseJsonInt (c :: rest)
    | [] => none

/-- Decode a nonempty comma-separated list of array elements up to `]`
(a trailing comma is a strict-grammar error). -/
def parseJsonElems : Nat → List Char → Option (List Val × List Char)
  | 0, _ => none
  | fuel + 1, cs =>
    match parseJsonVal fuel cs with
    | some (v, r) =>
      match skipJsonWs r with
      | ',' :: r2 =>
        match parseJsonElems fuel r2 with
        | some (vs, r3) => some (v :: vs, r3)
        | none => none
      | ']' :: r2 => some ([v], r2)
      | _ => none
    | none => none

/-- Decode a nonempty comma-separated list of object members up to the
closing brace (a trailing comma is a strict-grammar error). -/
def parseJsonMembers : Nat → List Char → Option (List (String × Val) × List Char)
  | 0, _ => none
  | fuel + 1, cs =>
    match skipJsonWs cs with
    | '"' :: r0 =>
      match parseJsonStr (r0.length + 1) r0 with
      | some (kcs, r1) =>
        match skipJsonWs r1 with
        | ':' :: r2 =>
          match parseJsonVal fuel r2 with
          | some (v, r3) =>
            match skipJsonWs r3 with
            | ',' :: r4 =>
              match parseJsonMembers fuel r4 with
              | some (fs, r5) => some ((String.mk kcs, v) :: fs, r5)
              | none => none
            | c :: r4 =>
              if c = rbrace then some ([(String.mk kcs, v)], r4) else none
            | [] => none
          | none => none
        | _ => none
      | none => none
    | _ => none

end

/-- Embeds `json.loads` on one unit: decode one value and require only whitespace
after it (strict failure is `none`, embedding the raised `JSONDecodeError`). -/
def jsonLoads (s : String) : Option Val :=
  match parseJsonVal (s.length + 1) s.data with
  | some (v, rest) => if skipJsonWs rest = [] then some v else none
  | none => none

/-! ### `clean_json_string` and `safe_json_loads` (build_compendium_db.py) -/

/-- Is this an escape the repair pass leaves alone
(the regex class `[bfnrtu"\\/]`)? -/
def validEscCh (c : Char) : Bool :=
  c = 'b' || c = 'f' || c = 'n' || c = 'r' || c = 't' || c = 'u' ||
  c = '"' || c = '\\' || c = '/'

/-- Is this a closing bracket for the trailing-comma repair
(the regex class `[}\]]`)? -/
def closeBrk (c : Char) : Bool := c = ']' || c = rbrace

/-- Fuelled worker for `fixCommas` (each step consumes at least one input
character). -/
def fixCommasF : Nat → List Char → List Char
  | 0, cs => cs
  | _, [] => []
  | fuel + 1, c :: rest =>
    if c = ',' then
      match rest.dropWhile isPyWs with
      | c2 :: r3 =>
        if closeBrk c2 then rest.takeWhile isPyWs ++ c2 :: fixCommasF fuel r3
        else ',' :: fixCommasF fuel rest
      | [] => ',' :: fixCommasF fuel rest
    else c :: fixCommasF fuel rest

/-- Embeds `re.sub(r',(\s*[}\]])', r'\1', s)`: delete every comma standing (up to
whitespace) before a closing bracket, scanning left to right. -/
def fixCommas (cs : List Char) : List Char := fixCommasF (cs.length + 1) cs

/-- Embeds `re.sub(r'\\([^bfnrtu"\\/])', fix_escapes, s)`: double the backslash of
every backslash-character pair whose second character is not a recognised
escape, scanning left to right. -/
def fixEscapes : List Char → List Char
  | [] => []
  | '\\' :: c :: rest =>
    if validEscCh c then '\\' :: fixEscapes (c :: rest)
    else '\\' :: '\\' :: c :: fixEscapes rest
  | c :: rest => c :: fixEscapes rest

/-- Embeds `clean_json_string`: trailing-comma repair, then escape repair. -/
def clean_json_string (s : String) : String :=
  String.mk (fixEscapes (fixCommas s.data))

/-- Embeds `safe_json_loads`: strict decode first; on failure, repair and retry;
on repeated failure, `none` (the function never raises). -/
def safe_json_loads (s : String) : Option Val :=
  match jsonLoads s with
  | some v => some v
  | none => jsonLoads (clean_json_string s)

/-! ### JSONP payload extraction and the listing split (build_compendium_db.py) -/

/-- Embeds `extract_jsonp_payload`: strip, drop a BOM, and slice the text between
the first `(` and the last `)` (exclusive). -/
def extract_jsonp_payload (content : String) : Option String :=
  let cs0 := (pyStrip content).data
  let cs := if cs0.headD ' ' = Char.ofNat 0xfeff then cs0.drop 1 else cs0
  match findSubIdx ['('] cs, findSubIdx [')'] cs.reverse with
  | some ps, some rIdx =>
    let pe := cs.length - 1 - rIdx
    some (String.mk ((cs.drop (ps + 1)).take (pe - (ps + 1))))
  | _, _ => none

/-- The bracket-depth scan of `parse_listing`: index of the character at
which the depth opened by the first `[` returns to zero.  Brackets are
counted textually, whether or not they lie inside string literals. -/
def columnsEndScan : Int → Nat → List Char → Option Nat
  | _, _, [] => none
  | depth, i, c :: rest =>
    if c = '[' then columnsEndScan (depth + 1) (i + 1) rest
    else if c = ']' then
      if depth - 1 = 0 then some i else columnsEndScan (depth - 1) (i + 1) rest
    else columnsEndScan depth (i + 1) rest

/-- Embeds `parse_listing`: split one listing payload into its columns array and
rows array at the textual bracket-depth boundary; any failure yields the
empty pair. -/
def parse_listing (content : String) : Val × Val :=
  match extract_jsonp_payload content with
  | none => (.vlist [], .vlist [])
  | some args =>
    if args = "" then (.vlist [], .vlist [])
    else
      match findSubIdx ['['] args.data with
      | none => (.vlist [], .vlist [])
      | some firstB =>
        let jsonPart := args.data.drop firstB
        match columnsEndScan 0 0 jsonPart with
        | none => (.vlist [], .vlist [])
        | some columnsEnd =>
          let columnsStr := String.mk (jsonPart.take (columnsEnd + 1))
          let remaining := jsonPart.drop (columnsEnd + 1)
          match findSubIdx ['['] remaining with
          | none => (.vlist [], .vlist [])
          | some rowsStart =>
            let rowsStr := pyRstripChar (String.mk (remaining.drop rowsStart)) ')'
            match safe_json_loads columnsStr, safe_json_loads rowsStr with
            | some columns, some rows => (columns, rows)
            | _, _ => (.vlist [], .vlist [])

/-! ### HTML text extraction (`HTMLTextExtractor` / `html_to_text`) -/

/-- Fuelled worker collecting the maximal text runs outside `<...>` tags
(the parser's `handle_data` chunks; character-reference decoding is not
exercised by the modelled inputs and is not embedded). -/
def htmlSegsF : Nat → List Char → List Char → List (List Char)
  | 0, acc, _ => if acc.isEmpty then [] else [acc.reverse]
  | _, acc, [] => if acc.isEmpty then [] else [acc.reverse]
  | fuel + 1, acc, c :: rest =>
    if c = '<' then
      let tail := (rest.dropWhile (· ≠ '>')).drop 1
      if acc.isEmpty then htmlSegsF fuel [] tail
      else acc.reverse :: htmlSegsF fuel [] tail
    else htmlSegsF fuel (c :: acc) rest

/-- Embeds `html_to_text`: plain text of an HTML fragment, the parser's data chunks
joined by single spaces; empty input short-circuits to the empty string. -/
def html_to_text (html : String) : String :=
  if html = "" then ""
  else joinWith " " ((htmlSegsF (html.length + 1) [] html.data).map String.mk)

/-! ### Regex scanners used by the derived-field extractors -/

/-- Case-insensitive literal match at the head of the input: returns the
actually matched characters (original case) and the rest. -/
def matchLitCI : List Char → List Char → Option (List Char × List Char)
  | [], cs => some ([], cs)
  | _ :: _, [] => none
  | p :: ps, c :: cs =>
    if lowerCh c = p then
      match matchLitCI ps cs with
      | some (m, r) => some (c :: m, r)
      | none => none
    else none

/-- Case-sensitive literal match at the head of the input. -/
def matchLit (pat cs : List Char) : Option (List Char) :=
  if prefOf pat cs then some (cs.drop pat.length) else none

/-- A maximal nonempty `\w+` run at the head of the input. -/
def takeWord (cs : List Char) : Option (List Char × List Char) :=
  let w := cs.takeWhile isWordCh
  if w.isEmpty then none else some (w, cs.drop w.length)

/-- The four defenses, in the regex alternation order `AC|Fortitude|Reflex|Will`. -/
def defenseAlts : List (List Char) := ["ac".data, "fortitude".data, "reflex".data, "will".data]

/-- Try the defense alternatives in order at the head of the input, returning
the matched text in its original case. -/
def tryDefenseAlt : List (List Char) → List Char → Option (List Char)
  | [], _ => none
  | w :: ws, cs =>
    match matchLitCI w cs with
    | some (m, _) => some m
    | none => tryDefenseAlt ws cs

/-- One attempt of `vs\.?\s*(AC|Fortitude|Reflex|Will)` (IGNORECASE) at the
head of the input. -/
def tryVsAt (cs : List Char) : Option (List Char) :=
  match matchLitCI "vs".data cs with
  | none => none
  | some (_, r1) =>
    let r2 := match r1 with
      | '.' :: t => t
      | _ => r1
    tryDefenseAlt defenseAlts (r2.dropWhile isPyWs)

/-- Leftmost match of the targeted-defense regex over the whole text. -/
def vsDefenseSearch : List Char → Option (List Char)
  | [] => none
  | c :: rest =>
    match tryVsAt (c :: rest) with
    | some m => some m
    | none => vsDefenseSearch rest

/-- Embeds `re.finditer` driver: emit every non-overlapping match group, resuming
after each match end (fuelled by the input length). -/
def scanAll (tryAt : List Char → Option (String × List Char)) :
    Nat → List Char → List String
  | 0, _ => []
  | _, [] => []
  | fuel + 1, c :: rest =>
    match tryAt (c :: rest) with
    | some (w, after) => w :: scanAll tryAt fuel after
    | none => scanAll tryAt fuel rest

/-- Pattern `target is (\w+)`. -/
def condTry1 (cs : List Char) : Option (String × List Char) :=
  match matchLit "target is ".data cs with
  | some r =>
    match takeWord r with
    | some (w, after) => some (String.mk w, after)
    | none => none
  | none => none

/-- Pattern `targets? (?:are|is) (\w+)` (greedy optional `s`, alternation
`are` before `is`, with backtracking). -/
def condTry2 (cs : List Char) : Option (String × List Char) :=
  let tail (r : List Char) : Option (String × List Char) :=
    match matchLit " ".data r with
    | some r1 =>
      match (matchLit "are".data r1).orElse (fun _ => matchLit "is".data r1) with
      | some r2 =>
        match matchLit " ".data r2 with
        | some r3 =>
          match takeWord r3 with
          | some (w, after) => some (String.mk w, after)
          | none => none
        | none => none
      | none => none
    | none => none
  match matchLit "target".data cs with
  | some r =>
    match matchLit "s".data r with
    | some r2 => (tail r2).orElse (fun _ => tail r)
    | none => tail r
  | none => none

/-- Pattern `(\w+) \(save ends\)`. -/
def condTry3 (cs : List Char) : Option (String × List Char) :=
  match takeWord cs with
  | some (w, r) =>
    match matchLit " (save ends)".data r with
    | some after => some (String.mk w, after)
    | none => none
  | none => none

/-- Pattern `and (?:is |the target is )?(\w+)` (greedy optional group with
backtracking; alternatives in source order). -/
def condTry4 (cs : List Char) : Option (String × List Char) :=
  let word (r : List Char) : Option (String × List Char) :=
    match takeWord r with
    | some (w, after) => some (String.mk w, after)
    | none => none
  match matchLit "and ".data cs with
  | some r =>
    ((do
        let r2 ← matchLit "is ".data r
        word r2).orElse
      (fun _ => do
        let r2 ← matchLit "the target is ".data r
        word r2)).orElse (fun _ => word r)
  | none => none

/-- Pattern `knocked (\w+)`. -/
def condTry5 (cs : List Char) : Option (String × List Char) :=
  match matchLit "knocked ".data cs with
  | some r =>
    match takeWord r with
    | some (w, after) => some (String.mk w, after)
    | none => none
  | none => none

/-- Embeds `\b<word>\b` (IGNORECASE) search; `prev` is the character before the
current scan position for the left boundary test. -/
def searchWordCIAux (w : List Char) : Option Char → List Char → Bool
  | _, [] => false
  | prev, c :: rest =>
    let leftOk : Bool := match prev with
      | none => true
      | some p => ¬isWordCh p
    if leftOk then
      match matchLitCI w (c :: rest) with
      | some (_, after) =>
        match after with
        | [] => true
        | c2 :: _ => if isWordCh c2 then searchWordCIAux w (some c) rest else true
      | none => searchWordCIAux w (some c) rest
    else searchWordCIAux w (some c) rest

/-- Whole-word, case-insensitive containment (`re.search(r'\bW\b', text, IGNORECASE)`). -/
def searchWordCI (w : String) (cs : List Char) : Bool := searchWordCIAux w.data none cs

/-- Leftmost match of `<Lit>\s+(\d+)` (case-sensitive literal). -/
def litNumSearch (lit : List Char) : List Char → Option Nat
  | [] => none
  | c :: rest =>
    let here : Option Nat :=
      match matchLit lit (c :: rest) with
      | some r =>
        if isPyWs (r.headD 'x') then
          let r2 := r.dropWhile isPyWs
          let ds := r2.takeWhile isDigitCh
          if ds.isEmpty then none else some (digitsToNat ds)
        else none
      | none => none
    match here with
    | some n => some n
    | none => litNumSearch lit rest

/-- Leftmost match of `<Lit>\s+(shape1|shape2|...)\s+(\d+)` (IGNORECASE),
returning the shape in lower case (`match.group(1).lower()`) and the size. -/
def areaSearch (lit : List Char) (shapes : List String) : List Char → Option (String × Nat)
  | [] => none
  | c :: rest =>
    let tryShape (r : List Char) : Option (String × Nat) :=
      (shapes.map (fun sh =>
        match matchLitCI sh.data r with
        | some (_, r2) =>
          if isPyWs (r2.headD 'x') then
            let r3 := r2.dropWhile isPyWs
            let ds := r3.takeWhile isDigitCh
            if ds.isEmpty then none else some (sh, digitsToNat ds)
          else none
        | none => none)).foldl (fun a b => a.orElse (fun _ => b)) none
    let here : Option (String × Nat) :=
      match matchLitCI lit (c :: rest) with
      | some (_, r) =>
        if isPyWs (r.headD 'x') then tryShape (r.dropWhile isPyWs) else none
      | none => none
    match here with
    | some x => some x
    | none => areaSearch lit shapes rest

/-! ### Derived-field extraction (build_compendium_db.py) -/

/-- Known damage types: the elements of the source's `DAMAGE_TYPES` set
literal, listed in written order.  CPython iterates a string set in a
per-process salt-randomized order; every place the source iterates this set
applies the run's iteration order `setOrd` to this element list. -/
def DAMAGE_TYPES : List String :=
  ["fire", "cold", "lightning", "thunder", "radiant", "necrotic",
   "psychic", "poison", "acid", "force"]

/-- Known conditions (source set literal; used only through membership
tests, which are order-independent). -/
def CONDITIONS : List String :=
  ["dazed", "stunned", "prone", "immobilized", "slowed", "dominated",
   "blinded", "deafened", "weakened", "petrified", "unconscious",
   "restrained", "grabbed", "marked", "surprised", "helpless",
   "dying", "dead", "bloodied"]

/-- Embeds `extract_damage_types`: keyword-field substring scan only; `none` embeds
the `TypeError` raised when a truthy non-string reaches `.lower()`.  Returns
(the `found` set as the list of hits in scan order, parse-log sources).
`setOrd` is the run's salt-randomized set-iteration order, applied to the
`DAMAGE_TYPES` set the loop `for dt in DAMAGE_TYPES` iterates; it determines
both which order `sources` accumulates in and the insertion order of `found`. -/
def extract_damage_types (setOrd : List String → List String) (keywords_raw : Val)
    (_html_body _search_text : String) :
    Option (List String × List (String × String × String)) :=
  match keywords_raw with
  | .vstr s =>
    if s = "" then some ([], [])
    else
      let kwLower := pyLower s
      let hits := (setOrd DAMAGE_TYPES).filter (fun dt => containsSub kwLower dt)
      some (hits, hits.map (fun dt => ("keyword", dt, "high")))
  | v => if pyTruthy v then none else some ([], [])

/-- The element list of a Python set built by successive `add` calls, in
insertion order (first occurrence of each element).  This is only the set's
carrier: when the source later iterates such a set (`for cond in conditions`
in `insert_powers`), the run's salt-randomized iteration order `setOrd` is
applied to this list at that loop. -/
def dedupFirst (l : List String) : List String :=
  l.foldl (fun acc w => if acc.contains w then acc else acc ++ [w]) []

/-- Embeds `extract_conditions`: the five medium-confidence phrase patterns scanned
over the lowercased descriptive text; every hit in the condition vocabulary
is logged, and the found set deduplicates. -/
def extract_conditions (html_body search_text : String) :
    List String × List (String × String × String) :=
  if html_body = "" ∧ search_text = "" then ([], [])
  else
    let text := if search_text ≠ "" then search_text else html_to_text html_body
    let tl := (pyLower text).data
    let pats := [condTry1, condTry2, condTry3, condTry4, condTry5]
    let hits := pats.flatMap
      (fun p => (scanAll p (tl.length + 1) tl).filter (fun w => CONDITIONS.contains w))
    (dedupFirst hits, hits.map (fun w => ("pattern", w, "medium")))

/-- Embeds `extract_defense_targeted`.  The source text is
`(search_text or html_to_text(html_body)) if html_body else ""` — Python
conditional-expression precedence makes the whole fallback conditional on
`html_body` being truthy. -/
def extract_defense_targeted (html_body search_text : String) :
    Option String × Option String :=
  let text := if html_body ≠ "" then
      (if search_text ≠ "" then search_text else html_to_text html_body)
    else ""
  match vsDefenseSearch text.data with
  | none => (none, none)
  | some m =>
    let defense := String.mk m
    if pyUpper defense = "AC" then (some "AC", some "high")
    else (some (pyCapitalize defense), some "high")

/-- Embeds `extract_range_info`: priority-ordered whole-word range-type detection,
then the per-type value/shape secondary matches. -/
def extract_range_info (_action_raw : Val) (html_body : String) :
    Option String × Option Nat × Option String × Option Nat :=
  let text := if html_body ≠ "" then html_to_text html_body else ""
  let cs := text.data
  if searchWordCI "melee" cs then
    ("Melee", litNumSearch "Melee".data cs, none, none)
  else if searchWordCI "ranged" cs then
    ("Ranged", litNumSearch "Ranged".data cs, none, none)
  else if searchWordCI "close" cs then
    match areaSearch "close".data ["burst", "blast"] cs with
    | some (ty, sz) => ("Close", none, some ty, some sz)
    | none => ("Close", none, none, none)
  else if searchWordCI "area" cs then
    match areaSearch "area".data ["burst", "blast", "wall"] cs with
    | some (ty, sz) => ("Area", none, some ty, some sz)
    | none => ("Area", none, none, none)
  else (none, none, none, none)

/-- Embeds `extract_power_type`: usage tier by priority-ordered substring match;
`none` embeds the `AttributeError` on a truthy non-string value. -/
def extract_power_type (type_raw : Val) : Option (Option String) :=
  if ¬pyTruthy type_raw then some none
  else
    match type_raw with
    | .vstr s =>
      let t := pyLower s
      if containsSub t "at-will" || containsSub t "atwill" then some (some "At-Will")
      else if containsSub t "enc" then some (some "Encounter")
      else if containsSub t "daily" then some (some "Daily")
      else some none
    | _ => none

/-- Embeds `parse_level`: level as an integer from the several raw shapes
(falsy input first, Python `bool` counting as `int`). -/
def parse_level (level_raw : Val) : Option Int :=
  if ¬pyTruthy level_raw then none
  else
    match level_raw with
    | .vint n => some n
    | .vbool b => some (if b then 1 else 0)
    | .vlist xs =>
      if xs.length ≥ 2 then
        match xs.get? 1 with
        | some (Val.vint n) => some n
        | some (Val.vbool b) => some (if b then 1 else 0)
        | _ => none
      else none
    | v =>
      let s := pyStrip (pyStr v)
      let ds := s.data.takeWhile isDigitCh
      if ds.isEmpty then none else some (digitsToNat ds)

/-- Embeds `normalize_value`: `None` stays `None`, a nonempty list becomes the
string form of its first element, an empty list becomes `None`, and any
other value is returned unchanged. -/
def normalize_value : Val → Val
  | .vnull => .vnull
  | .vlist [] => .vnull
  | .vlist (x :: _) => .vstr (pyStr x)
  | v => v

/-! ### Canonical store model (SQLite tables as association lists) -/

/-- One table row: `(column, value)` pairs in insert order. -/
abbrev Row := List (String × Val)

/-- One `_parse_log` entry, minus the `timestamp` column (stamped at the
store level with the run clock). -/
structure ParseLogRow where
  entry_id : Val
  field : String
  value : String
  source : String
  confidence : String

/-- The store contents produced by one run of `build_database`, before the
run clock is recorded.  FTS shadow tables, indexes and `VACUUM`/`ANALYZE`
are content-free derivations and are not modelled. -/
structure StoreCore where
  tables : List (String × List Row)
  power_keywords : List (Val × String)
  power_damage_types : List (Val × String)
  power_conditions : List (Val × String)
  name_index : List (String × String)
  categories : List (String × Nat × String)
  parse_log : List ParseLogRow

/-- The full store: core contents, parse-log rows with their
`CURRENT_TIMESTAMP`, and `_meta` (whose `build_date` is `datetime.now()`). -/
structure Store where
  tables : List (String × List Row)
  power_keywords : List (Val × String)
  power_damage_types : List (Val × String)
  power_conditions : List (Val × String)
  name_index : List (String × String)
  categories : List (String × Nat × String)
  parse_log : List (ParseLogRow × String)
  meta : List (String × String)

/-- The per-category tables of `create_schema`, in declaration order. -/
def schemaTables : List String :=
  ["powers", "feats", "monsters", "items", "classes", "races", "paragon_paths",
   "epic_destinies", "themes", "rituals", "backgrounds", "traps", "diseases",
   "poisons", "deities", "companions", "glossary", "armor", "weapons", "implements"]

/-- The empty store of a fresh rebuild (the existing database file is
removed before the run). -/
def initStoreCore : StoreCore :=
  { tables := schemaTables.map (fun t => (t, []))
    power_keywords := []
    power_damage_types := []
    power_conditions := []
    name_index := []
    categories := []
    parse_log := [] }

/-- Rows of one table (empty for an unknown table name). -/
def getTable (tabs : List (String × List Row)) (name : String) : List Row :=
  (alookup tabs name).getD []

/-- Replace one table's rows. -/
def setTable (tabs : List (String × List Row)) (name : String) (rows : List Row) :
    List (String × List Row) :=
  aset tabs name rows

/-- Embeds `INSERT OR REPLACE` on a table whose primary key is the `id` column:
conflicting rows (same non-NULL id) are deleted and the new row appended. -/
def insertOrReplaceRow (rows : List Row) (new : Row) : List Row :=
  match alookup new "id" with
  | some idv =>
    if beqVal idv Val.vnull then rows ++ [new]
    else (rows.filter (fun r => ¬beqVal ((alookup r "id").getD Val.vnull) idv)) ++ [new]
  | none => rows ++ [new]

/-- Embeds `INSERT OR IGNORE` on a two-column tag table with uniqueness on the pair. -/
def insertOrIgnorePair (l : List (Val × String)) (k : Val × String) : List (Val × String) :=
  if l.any (fun p => beqVal p.1 k.1 && p.2 == k.2) then l else l ++ [k]

/-- Embeds `INSERT OR IGNORE` on the `(name_lower, entry_id)` name index. -/
def insertOrIgnoreNameIx (l : List (String × String)) (p : String × String) :
    List (String × String) :=
  if l.contains p then l else l ++ [p]

/-- Embeds `INSERT OR REPLACE` on `_categories` (primary key `name`). -/
def insertOrReplaceCat (l : List (String × Nat × String)) (name : String) (cnt : Nat)
    (tbl : String) : List (String × Nat × String) :=
  (l.filter (fun t => t.1 ≠ name)) ++ [(name, cnt, tbl)]

/-- Column-name→index map lookup (`{col: idx for idx, col in enumerate(columns)}`,
later duplicates overwriting earlier ones). -/
def colMapGet (columns : List Val) (name : String) : Option Nat :=
  ((columns.enum.filter (fun p => beqVal p.2 (Val.vstr name))).getLast?).map (·.1)

/-- Embeds `col_map.get(name, default)`. -/
def colMapGetD (columns : List Val) (name : String) (d : Nat) : Nat :=
  (colMapGet columns name).getD d

/-- The guarded cell access `row[idx] if len(row) > idx else ''`. -/
def cellOr (row : List Val) (idx : Nat) : Val :=
  (row.get? idx).getD (Val.vstr "")

/-- Embeds `d.get(key, '')` where the dict keys are strings and the key is a
decoded value (a non-string key never matches). -/
def dictGetStr (d : List (String × String)) (k : Val) : String :=
  match k with
  | .vstr s => (alookup d s).getD ""
  | _ => ""

/-- Wrap an optional string for insertion (Python `None` → SQL NULL). -/
def optStrV : Option String → Val
  | some s => .vstr s
  | none => .vnull

/-- Wrap an optional integer for insertion. -/
def optIntV : Option Int → Val
  | some n => .vint n
  | none => .vnull

/-- Wrap an optional natural number for insertion. -/
def optNatV : Option Nat → Val
  | some n => .vint n
  | none => .vnull

/-- The keyword split `[k.strip() for k in keywords_raw.split(',') if k.strip()]`
guarded by `if keywords_raw:`; `none` embeds the `AttributeError` raised when
a truthy non-string reaches `.split`. -/
def kwSplit : Val → Option (List String)
  | .vstr s =>
    if s = "" then some []
    else some (((pySplit s ",").map pyStrip).filter (fun k => k ≠ ""))
  | v => if pyTruthy v then none else some []

/-! ### `insert_powers` and `insert_generic` -/

/-- Process one row of the power listing (`insert_powers` loop body).
A raised exception skips the rest of the row but keeps the effects already
performed, exactly as the source's per-row `try`/`except`.  `setOrd` is the
run's salt-randomized set-iteration order: the source iterates the
`damage_types` and `conditions` found-sets (`for dt in damage_types`,
`for cond in conditions`) when filling the tag tables, so those loops run
in `setOrd` of the sets' element lists. -/
def insertPowerRow (setOrd : List String → List String) (columns : List Val)
    (htmlBodies searchTexts : List (String × String))
    (st : StoreCore) (rowV : Val) : StoreCore :=
  match rowV with
  | Val.vlist row =>
    match row.get? (colMapGetD columns "ID" 0) with
    | none => st
    | some rawId =>
      let entry_id := normalize_value rawId
      let name := normalize_value (cellOr row (colMapGetD columns "Name" 1))
      let class_name := normalize_value (cellOr row (colMapGetD columns "ClassName" 2))
      let level_raw := cellOr row (colMapGetD columns "Level" 3)
      let type_raw := normalize_value (cellOr row (colMapGetD columns "Type" 4))
      let action := normalize_value (cellOr row (colMapGetD columns "Action" 5))
      let keywords_raw := normalize_value (cellOr row (colMapGetD columns "Keywords" 6))
      let source_book := normalize_value (cellOr row (colMapGetD columns "SourceBook" 7))
      let html_body := dictGetStr htmlBodies entry_id
      let search_text := dictGetStr searchTexts entry_id
      let level := parse_level level_raw
      match extract_power_type type_raw with
      | none => st
      | some power_usage =>
        let (defense, defense_conf) := extract_defense_targeted html_body search_text
        let (range_type, range_value, area_type, area_size) :=
          extract_range_info action html_body
        let mainRow : Row :=
          [("id", entry_id), ("name", name), ("class_name", class_name),
           ("level", optIntV level), ("level_raw", .vstr (pyStr level_raw)),
           ("type", type_raw), ("type_raw", type_raw), ("action", action),
           ("keywords_raw", keywords_raw), ("source_book", source_book),
           ("html_body", .vstr html_body), ("search_text", .vstr search_text),
           ("power_usage", optStrV power_usage), ("defense_targeted", optStrV defense),
           ("range_type", optStrV range_type), ("range_value", optNatV range_value),
           ("area_type", optStrV area_type), ("area_size", optNatV area_size)]
        let st1 := { st with
          tables := setTable st.tables "powers"
            (insertOrReplaceRow (getTable st.tables "powers") mainRow) }
        match kwSplit keywords_raw with
        | none => st1
        | some keywords =>
          let kwTags := keywords.foldl (fun acc kw =>
            insertOrIgnorePair acc (entry_id, kw)) st1.power_keywords
          let st2 := { st1 with power_keywords := kwTags }
          match extract_damage_types setOrd keywords_raw html_body search_text with
          | none => st2
          | some (damage_types, dtSources) =>
            let dtTags := (setOrd damage_types).foldl (fun acc dt =>
              insertOrIgnorePair acc (entry_id, dt)) st2.power_damage_types
            let st3 := { st2 with power_damage_types := dtTags }
            let dtRows := dtSources.map (fun src =>
              { entry_id := entry_id, field := "damage_type", value := src.2.1,
                source := src.1, confidence := src.2.2 : ParseLogRow })
            let st4 := { st3 with parse_log := st3.parse_log ++ dtRows }
            let (conditions, condSources) := extract_conditions html_body search_text
            let condTags := (setOrd conditions).foldl (fun acc cond =>
              insertOrIgnorePair acc (entry_id, cond)) st4.power_conditions
            let st5 := { st4 with power_conditions := condTags }
            let condRows := condSources.map (fun src =>
              { entry_id := entry_id, field := "condition", value := src.2.1,
                source := src.1, confidence := src.2.2 : ParseLogRow })
            let st6 := { st5 with parse_log := st5.parse_log ++ condRows }
            match defense, defense_conf with
            | some d, conf =>
              { st6 with parse_log := st6.parse_log ++
                  [{ entry_id := entry_id, field := "defense_targeted", value := d,
                     source := "regex", confidence := (conf).getD "" }] }
            | none, _ => st6
  | _ => st

/-- Embeds `insert_powers`: fold the power rows into the store, under the
run's set-iteration order `setOrd`. -/
def insert_powers (setOrd : List String → List String) (st : StoreCore)
    (columns : List Val) (rows : List Val)
    (htmlBodies searchTexts : List (String × String)) : StoreCore :=
  rows.foldl (insertPowerRow setOrd columns htmlBodies searchTexts) st

/-- The `values` dict computed for one generic row: the mapped listing cells
(normalised, with `None` for a missing column or short row), the body and
search text, and the parsed level when the mapping carries `level_raw`. -/
def insertGenericValues (col_mapping : List (String × String)) (columns : List Val)
    (htmlBodies searchTexts : List (String × String)) (row : List Val) : Row :=
  let values0 : Row := col_mapping.foldl (fun acc kv =>
    match colMapGet columns kv.2 with
    | some idx =>
      if idx < row.length then
        aset acc kv.1 (normalize_value ((row.get? idx).getD Val.vnull))
      else aset acc kv.1 Val.vnull
    | none => aset acc kv.1 Val.vnull) []
  let entry_id := (alookup values0 "id").getD (Val.vstr "")
  let values1 := aset values0 "html_body" (Val.vstr (dictGetStr htmlBodies entry_id))
  let values2 := aset values1 "search_text" (Val.vstr (dictGetStr searchTexts entry_id))
  if (col_mapping.find? (fun kv => kv.1 = "level_raw")).isSome then
    aset values2 "level" (optIntV (parse_level ((alookup values2 "level_raw").getD Val.vnull)))
  else values2

/-- Process one row of a generic category (`insert_generic` loop body). -/
def insertGenericRow (table_name : String) (columns : List Val)
    (htmlBodies searchTexts : List (String × String))
    (col_mapping : List (String × String)) (st : StoreCore) (rowV : Val) : StoreCore :=
  match rowV with
  | Val.vlist row =>
    let values3 := insertGenericValues col_mapping columns htmlBodies searchTexts row
    let newRows := insertOrReplaceRow (getTable st.tables table_name) values3
    { st with tables := setTable st.tables table_name newRows }
  | _ => st

/-- Embeds `insert_generic`: fold the rows of one generic category into the store. -/
def insert_generic (st : StoreCore) (table_name : String) (columns : List Val)
    (rows : List Val) (htmlBodies searchTexts : List (String × String))
    (col_mapping : List (String × String)) : StoreCore :=
  rows.foldl (insertGenericRow table_name columns htmlBodies searchTexts col_mapping) st

/-! ### `build_database` -/

/-- Category processing order and target tables (`category_table_map`). -/
def category_table_map : List (String × String) :=
  [("power", "powers"), ("feat", "feats"), ("monster", "monsters"), ("item", "items"),
   ("class", "classes"), ("race", "races"), ("paragonpath", "paragon_paths"),
   ("epicdestiny", "epic_destinies"), ("theme", "themes"), ("ritual", "rituals"),
   ("background", "backgrounds"), ("trap", "traps"), ("disease", "diseases"),
   ("poison", "poisons"), ("deity", "deities"), ("companion", "companions"),
   ("glossary", "glossary"), ("armor", "armor"), ("weapon", "weapons"),
   ("implement", "implements")]

/-- Embeds `generic_mappings`: table column → listing column, per table. -/
def generic_mappings : List (String × List (String × String)) :=
  [("feats",
    [("id", "ID"), ("name", "Name"), ("tier", "Tier"),
     ("prerequisite", "Prerequisite"), ("source_book", "SourceBook")]),
   ("monsters",
    [("id", "ID"), ("name", "Name"), ("level_raw", "Level"), ("combat_role", "CombatRole"),
     ("group_role", "GroupRole"), ("size", "Size"), ("creature_type", "CreatureType"),
     ("source_book", "SourceBook")]),
   ("items",
    [("id", "ID"), ("name", "Name"), ("category", "Category"), ("type", "Type"),
     ("level_raw", "Level"), ("cost", "Cost"), ("rarity", "Rarity"),
     ("source_book", "SourceBook")]),
   ("classes",
    [("id", "ID"), ("name", "Name"), ("role", "RoleName"), ("power_source", "PowerSourceText"),
     ("key_abilities", "KeyAbilities"), ("source_book", "SourceBook")]),
   ("races",
    [("id", "ID"), ("name", "Name"), ("origin", "Origin"),
     ("description", "DescriptionAttribute"), ("size", "Size"), ("source_book", "SourceBook")]),
   ("paragon_paths",
    [("id", "ID"), ("name", "Name"), ("prerequisite", "Prerequisite"),
     ("source_book", "SourceBook")]),
   ("epic_destinies",
    [("id", "ID"), ("name", "Name"), ("prerequisite", "Prerequisite"),
     ("source_book", "SourceBook")]),
   ("themes",
    [("id", "ID"), ("name", "Name"), ("prerequisite", "Prerequisite"),
     ("source_book", "SourceBook")]),
   ("rituals",
    [("id", "ID"), ("name", "Name"), ("level_raw", "Level"), ("component_cost", "ComponentCost"),
     ("price", "Price"), ("key_skill", "KeySkillDescription"), ("source_book", "SourceBook")]),
   ("backgrounds",
    [("id", "ID"), ("name", "Name"), ("type", "Type"), ("campaign", "Campaign"),
     ("skills", "Skills"), ("source_book", "SourceBook")]),
   ("traps",
    [("id", "ID"), ("name", "Name"), ("type", "Type"), ("level_raw", "Level"),
     ("role", "Role"), ("xp", "XP"), ("source_book", "SourceBook")]),
   ("diseases",
    [("id", "ID"), ("name", "Name"), ("level_raw", "Level"), ("source_book", "SourceBook")]),
   ("poisons",
    [("id", "ID"), ("name", "Name"), ("level_raw", "Level"), ("cost", "Cost"),
     ("source_book", "SourceBook")]),
   ("deities",
    [("id", "ID"), ("name", "Name"), ("alignment", "Alignment"), ("source_book", "SourceBook")]),
   ("companions",
    [("id", "ID"), ("name", "Name"), ("type", "Type"), ("source_book", "SourceBook")]),
   ("glossary",
    [("id", "ID"), ("name", "Name"), ("category", "Category"), ("type", "Type"),
     ("source_book", "SourceBook")]),
   ("armor",
    [("id", "ID"), ("name", "Name"), ("type", "Type"), ("armor_bonus", "ArmorBonus"),
     ("min_enhancement_bonus", "MinEnhancementBonus"), ("armor_check", "Check"),
     ("speed", "Speed"), ("price", "Price"), ("weight", "Weight"),
     ("source_book", "SourceBook")]),
   ("weapons",
    [("id", "ID"), ("name", "Name"), ("weapon_category", "WeaponCategory"),
     ("hands_required", "HandsRequired"), ("proficiency_bonus", "ProficiencyBonus"),
     ("damage", "Damage"), ("range", "Range"), ("price", "Price"), ("weight", "Weight"),
     ("weapon_group", "Group"), ("properties", "Properties"), ("source_book", "SourceBook")]),
   ("implements",
    [("id", "ID"), ("name", "Name"), ("source_book", "SourceBook")])]

/-- The decoded data of one category directory, as produced by
`load_category_data` (the file-level JSONP parsing feeds this boundary). -/
structure CategoryInput where
  columns : List Val
  rows : List Val
  htmlBodies : List (String × String)
  searchTexts : List (String × String)

/-- The decoded source input of one full build: per-category data for each
category directory that exists, and the decoded global name index. -/
structure BuildInput where
  categories : List (String × CategoryInput)
  nameIndexData : Option (List (String × Val))

/-- Process one category of the build loop: skip if absent or empty, insert
(powers specially, others generically), then record `_categories`. -/
def processCategory (setOrd : List String → List String) (now : StoreCore × Nat)
    (entry : String × String) (inp : BuildInput) : StoreCore × Nat :=
  let (st, total) := now
  let (category, table_name) := entry
  match alookup inp.categories category with
  | none => (st, total)
  | some ci =>
    if ci.rows.isEmpty then (st, total)
    else
      let st1 :=
        if category = "power" then
          insert_powers setOrd st ci.columns ci.rows ci.htmlBodies ci.searchTexts
        else
          match alookup generic_mappings table_name with
          | some mapping =>
            insert_generic st table_name ci.columns ci.rows ci.htmlBodies ci.searchTexts mapping
          | none => st
      let st2 := { st1 with
        categories := insertOrReplaceCat st1.categories category ci.rows.length table_name }
      (st2, total + ci.rows.length)

/-- Load the global name index: single ids and id lists both expand into
`(name_lower, str(id))` rows. -/
def loadNameIndex (st : StoreCore) (inp : BuildInput) : StoreCore :=
  match inp.nameIndexData with
  | none => st
  | some entries =>
    { st with name_index := entries.foldl (fun ix kv =>
        match kv.2 with
        | Val.vlist eids =>
          eids.foldl (fun ix2 eid => insertOrIgnoreNameIx ix2 (kv.1, pyStr eid)) ix
        | v => insertOrIgnoreNameIx ix (kv.1, pyStr v)) st.name_index }

/-- The clock-independent contents of one build under the run's
set-iteration order, with the total entry count. -/
def buildContent (inp : BuildInput) (setOrd : List String → List String) :
    StoreCore × Nat :=
  let (st, total) := category_table_map.foldl
    (fun acc entry => processCategory setOrd acc entry inp) (initStoreCore, 0)
  (loadNameIndex st inp, total)

/-- Embeds `build_database`: a fresh store built from the decoded input, stamping
the run clock `now` (`datetime.now().isoformat()` / `CURRENT_TIMESTAMP`)
into `_meta.build_date` and the parse-log timestamps; `setOrd` is the
process's salt-randomized set-iteration order, which the insert loops apply
wherever the source iterates a set. -/
def build_database (inp : BuildInput) (now : String)
    (setOrd : List String → List String) : Store :=
  let (core, total) := buildContent inp setOrd
  { tables := core.tables
    power_keywords := core.power_keywords
    power_damage_types := core.power_damage_types
    power_conditions := core.power_conditions
    name_index := core.name_index
    categories := core.categories
    parse_log := core.parse_log.map (fun r => (r, now))
    meta := [("build_date", now), ("total_entries", toString total), ("version", "1.0")] }

/-! ### Rule-graph extraction (4e_xml_parser/extract_grants.py) -/

/-- Embeds `safe_str`: strip, with `None` and the empty result collapsing to `None`. -/
def safe_str : Option String → Option String
  | none => none
  | some v =>
    let s := pyStrip v
    if s = "" then none else some s

/-- Python `a or b` on optional attribute strings (an empty string is falsy). -/
def pyOrStr : Option String → Option String → Option String
  | some s, b => if s ≠ "" then some s else b
  | none, b => b

/-- One rule directive: an XML child element of a `rules` block
(tag name and attributes; non-element nodes do not occur in the export). -/
structure Directive where
  tag : String
  attrs : List (String × String)

/-- Attribute access `child.get(key)`. -/
def dget (d : Directive) (k : String) : Option String := alookup d.attrs k

/-- One `RulesElement` of the authoring export: its identifying attributes
and its optional `rules` child block. -/
structure RulesElement where
  internalId : Option String
  elemType : Option String
  elemName : Option String
  rules : Option (List Directive)

/-- A `grants` row as inserted by the extractor (both compendium-id columns
are inserted as NULL and are omitted here; `id` is assigned by SQLite). -/
structure GrantEdge where
  granter_xml_id : String
  granter_type : String
  granter_name : Option String
  granted_xml_id : String
  granted_type : String
  granted_name : Option String
  requires : Option String
  level : Option String
  ordinal : Nat
deriving DecidableEq

/-- A `stat_additions` row as inserted by the extractor. -/
structure StatAddEdge where
  granter_xml_id : String
  granter_type : String
  granter_name : Option String
  stat_name : String
  value : String
  bonus_type : Option String
  requires : Option String
  ordinal : Nat
deriving DecidableEq

/-- A `modifies` row as inserted by the extractor. -/
structure ModifyEdge where
  granter_xml_id : String
  granter_type : String
  granter_name : Option String
  target_name : String
  target_type : Option String
  field : String
  value : Option String
  list_addition : Option String
  requires : Option String
  ordinal : Nat
deriving DecidableEq

/-- One emitted rule-graph edge. -/
inductive RuleEdge where
  | grant : GrantEdge → RuleEdge
  | statadd : StatAddEdge → RuleEdge
  | modify : ModifyEdge → RuleEdge
deriving DecidableEq

/-- Does the directive carry the attributes its kind requires?  A directive
of one of the three kinds missing a required attribute is skipped without
consuming an ordinal. -/
def directiveSkipped (d : Directive) : Bool :=
  let tag := pyLower d.tag
  if tag = "grant" then
    (safe_str (dget d "name")).isNone || (safe_str (dget d "type")).isNone
  else if tag = "statadd" then
    (safe_str (dget d "name")).isNone || (safe_str (dget d "value")).isNone
  else if tag = "modify" then
    (safe_str (dget d "name")).isNone ||
      (safe_str (pyOrStr (dget d "Field") (dget d "field"))).isNone
  else false

/-- The directive loop of `process_rules_element`: one edge per complete
directive, ordinals counting only emitted edges. -/
def processDirectives (granterId granterType : String) (granterName : Option String)
    (idToName : List (String × String)) : List Directive → Nat → List RuleEdge
  | [], _ => []
  | d :: rest, ordinal =>
    let tag := pyLower d.tag
    let emit (edge : RuleEdge) : List RuleEdge :=
      edge :: processDirectives granterId granterType granterName idToName rest (ordinal + 1)
    let skipped : List RuleEdge :=
      processDirectives granterId granterType granterName idToName rest ordinal
    if tag = "grant" then
      match safe_str (dget d "name"), safe_str (dget d "type") with
      | some gid, some gty =>
        emit (RuleEdge.grant
          { granter_xml_id := granterId, granter_type := granterType,
            granter_name := granterName, granted_xml_id := gid, granted_type := gty,
            granted_name := alookup idToName gid,
            requires := safe_str (dget d "requires"),
            level := safe_str (dget d "Level"), ordinal := ordinal })
      | _, _ => skipped
    else if tag = "statadd" then
      match safe_str (dget d "name"), safe_str (dget d "value") with
      | some sname, some sval =>
        emit (RuleEdge.statadd
          { granter_xml_id := granterId, granter_type := granterType,
            granter_name := granterName, stat_name := sname, value := sval,
            bonus_type := safe_str (dget d "type"),
            requires := safe_str (dget d "requires"), ordinal := ordinal })
      | _, _ => skipped
    else if tag = "modify" then
      match safe_str (dget d "name"), safe_str (pyOrStr (dget d "Field") (dget d "field")) with
      | some tname, some fld =>
        emit (RuleEdge.modify
          { granter_xml_id := granterId, granter_type := granterType,
            granter_name := granterName, target_name := tname,
            target_type := safe_str (dget d "type"), field := fld,
            value := safe_str (dget d "value"),
            list_addition := safe_str (dget d "list-addition"),
            requires := safe_str (dget d "requires"), ordinal := ordinal })
      | _, _ => skipped
    else skipped

/-- Embeds `process_rules_element`: edges of one `RulesElement` (empty when the
element lacks an internal id, a type, or a `rules` block). -/
def process_rules_element (idToName : List (String × String)) (e : RulesElement) :
    List RuleEdge :=
  match safe_str e.internalId, safe_str e.elemType with
  | some gid, some gty =>
    match e.rules with
    | none => []
    | some ds => processDirectives gid gty (safe_str e.elemName) idToName ds 0
  | _, _ => []

/-- The `xml_id → display name` map built over all elements before
extraction (`id_to_name`, later elements overwriting earlier ones). -/
def buildIdToName (elems : List RulesElement) : List (String × String) :=
  elems.foldl (fun acc e =>
    match e.internalId, e.elemName with
    | some xid, some nm =>
      if xid ≠ "" ∧ nm ≠ "" then aset acc xid (pyStrip nm) else acc
    | _, _ => acc) []

/-- All edges of one run, in element order (each element's inserts appended
in turn, as the main loop does). -/
def extractAll (idToName : List (String × String)) (elems : List RulesElement) :
    List RuleEdge :=
  elems.foldl (fun acc e => acc ++ process_rules_element idToName e) []

/-- The extractor's main loop: emitted edges together with the run's error
log.  The error list collects only exceptions caught per element; the
attribute checks inside `process_rules_element` return normally for a
directive missing a required attribute (the source has no logging call on
that path), so such a directive contributes nothing to the log. -/
def mainExtract (elems : List RulesElement) : List RuleEdge × List (String × String) :=
  (extractAll (buildIdToName elems) elems, [])

/-! ### Identity resolution (4e_xml_parser/resolve_compendium_ids.py) -/

/-- XML type suffix → (compendium table, id prefix); `(none, none)` entries
have no direct table. -/
def TYPE_MAP : List (String × (Option String × Option String)) :=
  [("POWER", (some "powers", some "power")),
   ("FEAT", (some "feats", some "feat")),
   ("CLASS", (some "classes", some "class")),
   ("RACE", (some "races", some "race")),
   ("MAGIC_ITEM", (some "items", some "item")),
   ("ITEM", (some "items", some "item")),
   ("PARAGON_PATH", (some "paragon_paths", some "paragonpath")),
   ("EPIC_DESTINY", (some "epic_destinies", some "epicdestiny")),
   ("THEME", (some "themes", some "theme")),
   ("RITUAL", (some "rituals", some "ritual")),
   ("BACKGROUND", (some "backgrounds", some "background")),
   ("DEITY", (some "deities", some "deity")),
   ("COMPANION", (some "companions", some "companion")),
   ("RACIAL_TRAIT", (none, none)),
   ("CLASS_FEATURE", (none, none)),
   ("GRANTS", (none, none)),
   ("BUILD_SUGGESTIONS", (none, none)),
   ("INTERNAL", (none, none))]

/-- XML types that may match several compendium categories in name search. -/
def TYPE_GROUP_PREFIXES : List (String × List String) :=
  [("MAGIC_ITEM", ["item", "implement", "armor", "weapon", "poison"]),
   ("ITEM", ["item", "implement", "armor", "weapon", "poison"]),
   ("COMPANION", ["companion", "associate"]),
   ("FAMILIAR", ["companion", "associate"]),
   ("ASSOCIATE", ["companion", "associate"])]

/-- The outcome triple of `xml_to_compendium_id`. -/
structure DeriveOut where
  comp_id : Option String
  table : Option String
  reason : Option String
deriving DecidableEq

/-- Embeds `xml_to_compendium_id`: derive the candidate compendium id, its table,
and the unmappable reason (`none` when mappable).  The empty string stands
for the source's falsy/non-string guard. -/
def xml_to_compendium_id (xml_id : String) : DeriveOut :=
  if xml_id = "" then ⟨none, none, some "empty_or_invalid"⟩
  else if ¬containsSub xml_id "ID_FMP_" then
    let parts := (pySplit xml_id "_").take 2
    let pfx :=
      if parts.length ≥ 2 then joinWith "_" parts
      else if xml_id.length > 30 then String.mk (xml_id.data.take 30) ++ "..."
      else xml_id
    ⟨none, none, some ("non-FMP prefix (" ++ pfx ++ ")")⟩
  else
    match rsplitLast (String.mk (replaceFirst xml_id.data "ID_FMP_".data)) '_' with
    | none => ⟨none, none, some "unparseable format"⟩
    | some (type_part, num_part) =>
      if num_part = "" ∨ ¬num_part.data.all isDigitCh then
        ⟨none, none, some "no numeric suffix"⟩
      else
        match alookup TYPE_MAP type_part with
        | some (some table, some pfx) => ⟨some (pfx ++ num_part), some table, none⟩
        | _ => ⟨none, none, some ("unknown type (" ++ type_part ++ ")")⟩

/-- One compendium entity row, as the resolver reads it
(`SELECT id FROM t` / `SELECT id FROM t WHERE LOWER(name) = ?`). -/
structure Entry where
  id : String
  name : String
deriving DecidableEq

/-- The compendium database as the resolver sees it: per-table entity rows
and the global `(name_lower, entry_id)` index. -/
structure Compendium where
  tables : List (String × List Entry)
  nameIndex : List (String × String)

/-- Embeds `get_valid_ids`: ids of one table (a missing table raises and yields the
empty set in the source). -/
def get_valid_ids (comp : Compendium) (table : String) : List String :=
  ((alookup comp.tables table).getD []).map (fun e => e.id)

/-- The `valid_ids` dict: the distinct tables of `TYPE_MAP` in declaration
order, then the four item-like tables not already present. -/
def buildValidIds (comp : Compendium) : List (String × List String) :=
  let step (acc : List (String × List String)) (tblOpt : Option String) :=
    match tblOpt with
    | some t => if (alookup acc t).isSome then acc else acc ++ [(t, get_valid_ids comp t)]
    | none => acc
  let acc1 := TYPE_MAP.foldl (fun acc kv => step acc kv.2.1) []
  ["implements", "armor", "weapons", "poisons"].foldl (fun acc t => step acc (some t)) acc1

/-- Embeds `comp_id in valid_ids.get(table, set())`. -/
def validIdsContains (validIds : List (String × List String)) (table eid : String) : Bool :=
  ((alookup validIds table).getD []).contains eid

/-- Membership in the flattened `all_valid_ids` set. -/
def allValidIdsContains (validIds : List (String × List String)) (eid : String) : Bool :=
  validIds.any (fun kv => kv.2.contains eid)

/-- Embeds `name_to_ids`: the entry ids recorded in the name index for one
lowercased name, in row order. -/
def nameToIds (comp : Compendium) (key : String) : List String :=
  (comp.nameIndex.filter (fun kv => kv.1 = key)).map (fun kv => kv.2)

/-! #### Name-variant generation (`name_search_variants`) -/

/-- The `add` closure: squash whitespace, strip, and append if new and
nonempty. -/
def addv (vs : List String) (v : String) : List String :=
  let v2 := pyStrip (String.mk (squashWs v.data))
  if v2 ≠ "" ∧ ¬vs.contains v2 then vs ++ [v2] else vs

/-- Embeds `re.sub(r"\s*\(open...close\)\s*$", "", s)` for a bracket pair: remove a
trailing bracketed group (whose body contains no closing bracket) and the
whitespace around it. -/
def stripEncSuffix (opn cls : Char) (s : String) : String :=
  let t := (dropWsL s.data.reverse).reverse
  match t.getLast? with
  | some c =>
    if c = cls then
      let u := t.dropLast
      let tailSeg := (u.reverse.takeWhile (fun x => x ≠ cls)).reverse
      match findSubIdx [opn] tailSeg with
      | some j =>
        let i := u.length - tailSeg.length + j
        String.mk ((dropWsL (u.take i).reverse).reverse)
      | none => s
    else s
  | none => s

/-- Embeds `re.sub(r"\s*\+\d+\s*$", "", s)`: remove a trailing `+N` enhancement
suffix and the whitespace around it. -/
def stripPlusN (s : String) : String :=
  let r := dropWsL s.data.reverse
  let ds := r.takeWhile isDigitCh
  if ds.isEmpty then s
  else
    match r.drop ds.length with
    | '+' :: rest => String.mk ((dropWsL rest).reverse)
    | _ => s

/-- Strip a whitespace-separated word-sequence suffix
(`re.sub(r"\s+w1\s+...\s+wn\s*$", "", s)`); words are given last-first,
reversed.  `none` when the pattern does not match. -/
def stripRevWords : List (List Char) → List Char → Option (List Char)
  | [], r => some r
  | w :: rest, r =>
    if prefOf w r then
      let r2 := r.drop w.length
      let r3 := dropWsL r2
      if r3.length = r2.length then none else stripRevWords rest r3
    else none

/-- Reverse-encode the pattern words for `stripRevWords`. -/
def sufWords (ws : List String) : List (List Char) :=
  (ws.reverse).map (fun w => w.data.reverse)

/-- Strip the given trailing word sequence, or return the string unchanged. -/
def stripWordSuffix (wordsRev : List (List Char)) (s : String) : String :=
  match stripRevWords wordsRev (dropWsL s.data.reverse) with
  | some r => String.mk r.reverse
  | none => s

/-- Embeds `re.sub(r"\bword\b", "", s)` applied to each occurrence, scanning left
to right (fuelled by the input length). -/
def removeWordAllF (w : List Char) : Nat → Option Char → List Char → List Char
  | 0, _, cs => cs
  | _, _, [] => []
  | fuel + 1, prev, c :: rest =>
    let leftOk : Bool := match prev with
      | none => true
      | some p => ¬isWordCh p
    if leftOk ∧ prefOf w (c :: rest) then
      let after := (c :: rest).drop w.length
      let rightOk : Bool := match after with
        | [] => true
        | c2 :: _ => ¬isWordCh c2
      if rightOk then removeWordAllF w fuel (some (w.getLastD c)) after
      else c :: removeWordAllF w fuel (some c) rest
    else c :: removeWordAllF w fuel (some c) rest

/-- Embeds `re.sub(r"\bword\b", "", s)` over a whole string. -/
def removeWordAll (w : String) (s : String) : String :=
  String.mk (removeWordAllF w.data (s.length + 1) none s.data)

/-- Embeds `re.sub(r"([a-z])([A-Z])", r"\1 \2", ...)`: a space between each
lowercase-uppercase pair. -/
def insertCamelSpaces : List Char → List Char
  | c1 :: c2 :: rest =>
    if isLowerCh c1 && isUpperCh c2 then
      c1 :: ' ' :: insertCamelSpaces (c2 :: rest)
    else c1 :: insertCamelSpaces (c2 :: rest)
  | l => l

/-- Embeds `name_search_variants`: the ordered list of lookup keys tried for one
display name, exact first, then the normalisation cascade. -/
def name_search_variants (name : String) : List String :=
  let s := pyLower (pyStrip name)
  if s = "" then []
  else
    let vs := [s]
    let base := pyStrip (stripEncSuffix '(' ')' s)
    let vs := addv vs base
    let vs := addv vs (pyStrip (stripEncSuffix '[' ']' s))
    let vs := addv vs (pyStrip (stripEncSuffix '[' ']' base))
    let vs := addv vs (stripPlusN base)
    let vs := addv vs (stripPlusN s)
    let spaced := pyLower (pyStrip (String.mk (insertCamelSpaces (pyStrip name).data)))
    let vs := addv vs spaced
    let vs := if spaced ≠ base then addv vs (stripEncSuffix '(' ')' spaced) else vs
    let vs := ["sword", "blade", "armor", "shield", "weapon", "staff", "rod", "orb",
               "cloak"].foldl (fun acc sub =>
      if containsSub s sub ∧ ¬(containsSub s (" " ++ sub) ∨ containsSub s (sub ++ " ")) then
        match findSubIdx sub.data s.data with
        | some idx =>
          if idx > 0 then
            addv acc (String.mk (s.data.take idx) ++ " " ++ String.mk (s.data.drop idx))
          else acc
        | none => acc
      else acc) vs
    let vs := [["attack"], ["power"], ["(daily)"], ["(encounter)"],
               ["flight"], ["teleport"], ["strike"], ["buffet"]].foldl
      (fun acc w => addv acc (pyStrip (stripWordSuffix (sufWords w) s))) vs
    let attack_stripped := pyStrip (stripWordSuffix (sufWords ["attack"]) s)
    let vs :=
      if attack_stripped ≠ s ∧ ¬pyStartsWith attack_stripped "form of" then
        addv (addv vs ("form of the " ++ attack_stripped)) ("form of " ++ attack_stripped)
      else vs
    let vs := ["epic", "heroic", "paragon"].foldl
      (fun acc tier => addv acc (removeWordAll tier s)) vs
    let vs := ["armor", "weapon", "shield", "ring", "boots", "cloak"].foldl
      (fun acc w =>
        let acc2 := addv acc (pyStrip (stripWordSuffix (sufWords [w]) s))
        let base_no_plus := pyStrip (stripPlusN s)
        addv acc2 (pyStrip (stripWordSuffix (sufWords [w]) base_no_plus))) vs
    let vs := addv vs (stripWordSuffix (sufWords ["secondary", "power"]) s)
    let vs := addv vs (stripWordSuffix (sufWords ["secondary", "attack"]) s)
    let vs :=
      if containsSub s " form " then
        addv vs (pyStrip ((pySplit s " form ").headD s ++ " form"))
      else vs
    let vs := ["rod", "staff", "orb", "wand"].foldl
      (fun acc w =>
        let acc2 := addv acc (pyStrip (stripWordSuffix (sufWords [w]) s))
        let base_no_plus := pyStrip (stripPlusN s)
        addv acc2 (pyStrip (stripWordSuffix (sufWords [w]) base_no_plus))) vs
    let vs :=
      if containsSub s " - " then addv vs (pyStrip (stripPlusN s)) else vs
    let base_no_plus := pyStrip (stripPlusN s)
    if pyEndsWith base_no_plus " implement" then
      let pfx := pyStrip (String.mk
        (base_no_plus.data.take (base_no_plus.data.length - " implement".length)))
      ["orb", "rod", "staff", "wand", "tome", "totem", "holy symbol", "ki focus"].foldl
        (fun acc it => addv acc (pfx ++ " " ++ it)) vs
    else vs

/-! #### Name search against the store -/

/-- Tables queried directly by name when the name index misses. -/
def PREFIX_TO_TABLE : List (String × String) :=
  [("weapon", "weapons"), ("item", "items"), ("armor", "armor"),
   ("implement", "implements"), ("poison", "poisons"), ("power", "powers"),
   ("feat", "feats")]

/-- Embeds `search_tables_by_name`: direct `LOWER(name) = key` search over the
tables whose prefix family the reference admits. -/
def search_tables_by_name (comp : Compendium) (validIds : List (String × List String))
    (name_key : String) (acceptable : List String) : Option String :=
  if acceptable.isEmpty ∨ name_key = "" then none
  else
    PREFIX_TO_TABLE.foldl (fun found kv =>
      match found with
      | some _ => found
      | none =>
        if ¬(acceptable.contains kv.1 ∨ acceptable.contains (kv.1 ++ "s")) then none
        else if (alookup validIds kv.2).isNone then none
        else
          let rows := ((alookup comp.tables kv.2).getD []).filter
            (fun e => pyLower e.name = name_key)
          (rows.map (fun e => e.id)).find? (fun eid =>
            allValidIdsContains validIds eid &&
              acceptable.any (fun p => pyStartsWith eid p))) none

/-- The acceptable category-prefix set for a type hint: the group table
first, else the single `TYPE_MAP` prefix, else none. -/
def acceptablePrefixesFor (type_hint : Option String) : List String :=
  match type_hint with
  | none => []
  | some th =>
    match alookup TYPE_GROUP_PREFIXES th with
    | some grp => grp
    | none =>
      match alookup TYPE_MAP th with
      | some (_, some pfx) => [pfx]
      | _ => []

/-- Embeds `search_by_name`: try each name variant in order against the name index
(category-prefix filtered), falling back to the direct table search. -/
def search_by_name (comp : Compendium) (validIds : List (String × List String))
    (name : Option String) (type_hint : Option String) : Option String :=
  match name with
  | none => none
  | some nm =>
    if pyStrip nm = "" then none
    else
      let acceptable := acceptablePrefixesFor type_hint
      (name_search_variants nm).foldl (fun found key =>
        match found with
        | some _ => found
        | none =>
          let candidates := nameToIds comp key
          let valid := candidates.filter (fun eid => allValidIdsContains validIds eid)
          let fromIx : Option String :=
            if ¬valid.isEmpty then
              if ¬acceptable.isEmpty then
                (valid.filter (fun eid =>
                  acceptable.any (fun p => pyStartsWith eid p))).head?
              else valid.head?
            else none
          match fromIx with
          | some x => some x
          | none =>
            if ¬acceptable.isEmpty then
              search_tables_by_name comp validIds key acceptable
            else none) none

/-! #### The per-reference resolution log -/

/-- One `_id_resolution_log` row (the occurrence-count columns, which no
claim concerns, are omitted). -/
structure LogRow where
  xml_id : String
  attempted_compendium_id : Option String
  resolved_compendium_id : Option String
  compendium_table : Option String
  status : String
  resolution_method : Option String
  unmappable_reason : Option String
deriving DecidableEq

/-- The name-search type hint re-derived from the xml id (log-loop lines). -/
def typeHintFor (xml_id : String) (comp_id : Option String) : Option String :=
  match comp_id with
  | some c =>
    if c ≠ "" ∧ containsSub xml_id "ID_FMP_" then
      let rest := String.mk (replaceFirst xml_id.data "ID_FMP_".data)
      match rsplitLast rest '_' with
      | some (tp, _) => some tp
      | none => none
    else none
  | none => none

/-- The name-search leg of the cascade: the auxiliary display name of the
reference, if any, searched with the type hint. -/
def nameSearchOutcome (comp : Compendium) (validIds : List (String × List String))
    (idToName : List (String × String)) (xml_id : String) (comp_id : Option String) :
    Option String :=
  match alookup idToName xml_id with
  | some nm =>
    if nm ≠ "" then search_by_name comp validIds (some nm) (typeHintFor xml_id comp_id)
    else none
  | none => none

/-- The name-search / not-found tail of the log loop. -/
def resolveNameSearchPart (comp : Compendium) (validIds : List (String × List String))
    (idToName : List (String × String)) (xml_id : String)
    (comp_id table : Option String) : LogRow :=
  match nameSearchOutcome comp validIds idToName xml_id comp_id with
  | some found =>
    { xml_id := xml_id, attempted_compendium_id := comp_id,
      resolved_compendium_id := some found, compendium_table := none,
      status := "matched_name_search", resolution_method := some "name_search",
      unmappable_reason := none }
  | none =>
    { xml_id := xml_id, attempted_compendium_id := comp_id,
      resolved_compendium_id := none,
      compendium_table := (match table with
        | some t => if t ≠ "" then some t else none
        | none => none),
      status := "not_found", resolution_method := none, unmappable_reason := none }

/-- The manual-override / name-search else branch of the log loop. -/
def resolveElseBranch (comp : Compendium) (validIds : List (String × List String))
    (manual idToName : List (String × String)) (xml_id : String)
    (comp_id table : Option String) : LogRow :=
  match alookup manual xml_id with
  | some m =>
    if m ≠ "" then
      { xml_id := xml_id, attempted_compendium_id := comp_id,
        resolved_compendium_id := some m, compendium_table := none,
        status := "matched_manual", resolution_method := some "manual",
        unmappable_reason := none }
    else resolveNameSearchPart comp validIds idToName xml_id comp_id table
  | none => resolveNameSearchPart comp validIds idToName xml_id comp_id table

/-- The body of the log loop for one distinct xml id: the strict cascade
unmappable → direct id → manual override → name search → not found. -/
def logEntryFor (comp : Compendium) (manual idToName : List (String × String))
    (xml_id : String) : LogRow :=
  let validIds := buildValidIds comp
  match xml_to_compendium_id xml_id with
  | ⟨_, _, some r⟩ =>
    { xml_id := xml_id, attempted_compendium_id := none,
      resolved_compendium_id := none, compendium_table := none,
      status := "unmappable", resolution_method := none, unmappable_reason := some r }
  | ⟨some cid, some tbl, none⟩ =>
    if cid ≠ "" ∧ tbl ≠ "" ∧ validIdsContains validIds tbl cid then
      { xml_id := xml_id, attempted_compendium_id := some cid,
        resolved_compendium_id := some cid, compendium_table := some tbl,
        status := "matched", resolution_method := some "id", unmappable_reason := none }
    else resolveElseBranch comp validIds manual idToName xml_id (some cid) (some tbl)
  | ⟨comp_id, table, none⟩ =>
    resolveElseBranch comp validIds manual idToName xml_id comp_id table

/-! #### The grants database and the in-place update phase -/

/-- One `grants` row as the resolver reads and updates it. -/
structure GrantsRow where
  rowid : Nat
  granter_xml_id : String
  granter_compendium_id : Option String
  granter_type : String
  granter_name : Option String
  granted_xml_id : String
  granted_compendium_id : Option String
  granted_type : String
  granted_name : Option String
  requires : Option String
  level : Option String
  ordinal : Nat
deriving DecidableEq

/-- One `stat_additions` row. -/
structure StatAddRow where
  rowid : Nat
  granter_xml_id : String
  granter_compendium_id : Option String
  granter_type : String
  granter_name : Option String
  stat_name : String
  value : String
  bonus_type : Option String
  requires : Option String
  ordinal : Nat
deriving DecidableEq

/-- One `modifies` row. -/
structure ModifyRow where
  rowid : Nat
  granter_xml_id : String
  granter_compendium_id : Option String
  granter_type : String
  granter_name : Option String
  target_name : String
  target_type : Option String
  field : String
  value : Option String
  list_addition : Option String
  requires : Option String
  ordinal : Nat
deriving DecidableEq

/-- The grants database contents handed to the resolver. -/
structure GrantsDb where
  grants : List GrantsRow
  stat_additions : List StatAddRow
  modifies : List ModifyRow

/-- Embeds `xml_id_to_name`: display names keyed by xml id, from all three edge
tables (later rows overwriting earlier ones; falsy values skipped). -/
def buildXmlIdToName (g : GrantsDb) : List (String × String) :=
  let acc1 := g.grants.foldl (fun acc r =>
    let acc2 :=
      if r.granter_xml_id ≠ "" ∧ r.granter_name.getD "" ≠ "" then
        aset acc r.granter_xml_id (r.granter_name.getD "")
      else acc
    if r.granted_xml_id ≠ "" ∧ r.granted_name.getD "" ≠ "" then
      aset acc2 r.granted_xml_id (r.granted_name.getD "")
    else acc2) []
  let acc3 := g.stat_additions.foldl (fun acc r =>
    if r.granter_xml_id ≠ "" ∧ r.granter_name.getD "" ≠ "" then
      aset acc r.granter_xml_id (r.granter_name.getD "")
    else acc) acc1
  g.modifies.foldl (fun acc r =>
    if r.granter_xml_id ≠ "" ∧ r.granter_name.getD "" ≠ "" then
      aset acc r.granter_xml_id (r.granter_name.getD "")
    else acc) acc3

/-- The distinct xml ids of `id_info`, in first-occurrence order (grants
granter/granted, then stat-addition granters, then modify granters). -/
def idInfoKeys (g : GrantsDb) : List String :=
  let push (acc : List String) (x : String) : List String :=
    if x ≠ "" ∧ ¬acc.contains x then acc ++ [x] else acc
  let acc1 := g.grants.foldl (fun acc r => push (push acc r.granter_xml_id) r.granted_xml_id) []
  let acc2 := g.stat_additions.foldl (fun acc r => push acc r.granter_xml_id) acc1
  g.modifies.foldl (fun acc r => push acc r.granter_xml_id) acc2

/-- The `_id_resolution_log` rows of one run, one per distinct xml id. -/
def resolutionLog (comp : Compendium) (manual : List (String × String)) (g : GrantsDb) :
    List LogRow :=
  (idInfoKeys g).map (logEntryFor comp manual (buildXmlIdToName g))

/-- Count of log rows with one status (the summary queries). -/
def statusCount (rows : List LogRow) (s : String) : Nat :=
  (rows.filter (fun r => r.status = s)).length

/-- Embeds `resolve(xml_id)` as observed during the update phase: by then the log
loop has populated the cache for every xml id occurring in any edge table
(manual-override and name-search results included), so the cached value is
exactly the log row's resolved id; `resolve(None)` is `None`. -/
def resolveCached (comp : Compendium) (manual idToName : List (String × String)) :
    Option String → Option String
  | none => none
  | some s => (logEntryFor comp manual idToName s).resolved_compendium_id

/-- The grants update: when either end resolved, set exactly the two
resolved-id columns; otherwise leave the row untouched. -/
def updateGrantsRow (comp : Compendium) (manual idToName : List (String × String))
    (r : GrantsRow) : GrantsRow :=
  let granter_comp := resolveCached comp manual idToName (some r.granter_xml_id)
  let granted_comp := resolveCached comp manual idToName (some r.granted_xml_id)
  if granter_comp.isSome ∨ granted_comp.isSome then
    { r with granter_compendium_id := granter_comp, granted_compendium_id := granted_comp }
  else r

/-- The stat-additions update: set the granter resolved id when resolved. -/
def updateStatAddRow (comp : Compendium) (manual idToName : List (String × String))
    (r : StatAddRow) : StatAddRow :=
  match resolveCached comp manual idToName (some r.granter_xml_id) with
  | some c => { r with granter_compendium_id := some c }
  | none => r

/-- The modifies update: set the granter resolved id when resolved. -/
def updateModifyRow (comp : Compendium) (manual idToName : List (String × String))
    (r : ModifyRow) : ModifyRow :=
  match resolveCached comp manual idToName (some r.granter_xml_id) with
  | some c => { r with granter_compendium_id := some c }
  | none => r

/-! #### Bridge: a built store read back as the resolver's compendium -/

/-- A stored value as SQLite text (TEXT affinity; NULL reads as the empty
string through the resolver's set/string operations). -/
def dbText : Option Val → String
  | some (Val.vstr s) => s
  | some (Val.vint n) => toString n
  | _ => ""

/-- One stored row as the resolver's entity view. -/
def rowEntry (r : Row) : Entry :=
  { id := dbText (alookup r "id"), name := dbText (alookup r "name") }

/-- Read a built store as the resolver's compendium input. -/
def compendiumOf (st : Store) : Compendium :=
  { tables := st.tables.map (fun kv => (kv.1, kv.2.map rowEntry))
    nameIndex := st.name_index }

/-! ## Claim theorems -/

/-! ### C3: the `+N` name-variant cascade scenario -/

/-- The canonical store of the C3 scenario: the direct candidate `item999`
is absent, and the name index has an entry only for the `+N`-stripped name,
pointing at an armor entity. -/
def c3comp : Compendium :=
  { tables := [("items", []), ("armor", [{ id := "armor7", name := "Black Iron Armor" }])]
    nameIndex := [("black iron armor", "armor7")] }

/-- The auxiliary display-name map of the C3 scenario. -/
def c3idToName : List (String × String) :=
  [("ID_FMP_MAGIC_ITEM_999", "Black Iron Armor +2")]

/-- C3: an external reference whose direct derivation fails store validation
and whose display name is "Black Iron Armor +2" resolves — with the name
index empty at the raw lowercased name but holding "black iron armor" with a
category-matching id — via the trailing `+N` strip variant, with status
`matched_name_search` and method `name_search`. -/
theorem c3_plusN_variant_cascade :
    name_search_variants "Black Iron Armor +2" =
      ["black iron armor +2", "black iron armor", "black iron"] ∧
    nameToIds c3comp "black iron armor +2" = [] ∧
    validIdsContains (buildValidIds c3comp) "items" "item999" = false ∧
    logEntryFor c3comp [] c3idToName "ID_FMP_MAGIC_ITEM_999" =
      { xml_id := "ID_FMP_MAGIC_ITEM_999", attempted_compendium_id := some "item999",
        resolved_compendium_id := some "armor7", compendium_table := none,
        status := "matched_name_search", resolution_method := some "name_search",
        unmappable_reason := none } :=
  ⟨rfl, rfl, rfl, rfl⟩

/-! ### C6: payload repair vs the hand-fixed equivalent -/

/-- C6 counterexample: the unit `["\U", 1,]` (with an escaped backslash
before `U` inside the string literal) fails strict parsing only because of
its trailing comma, and its hand-fixed equivalent `["\U", 1]` parses to the
two-element tree — but the escape repair also fires inside the string
literal, so the repairing decoder returns the no-data marker instead of
that tree. -/
theorem c6_counterexample_escape_inside_string :
    jsonLoads "[\"\\\\U\", 1]" = some (Val.vlist [Val.vstr "\\U", Val.vint 1]) ∧
    safe_json_loads "[\"\\\\U\", 1,]" = none :=
  ⟨rfl, rfl⟩

/-- C6 (amended): the repairs are textual, so the hand-fixed equivalence is
guaranteed only when the repair patterns do not also occur inside
string-literal content — as in the spec's scenario of one trailing comma
and one invalid escape; strictly parseable units decode unchanged; a unit
still unparseable after repair yields the no-data marker rather than
raising. -/
theorem c6_amended_repair_decode :
    (∀ s v, jsonLoads s = some v → safe_json_loads s = some v) ∧
    (jsonLoads "[\"a\\qb\", 1,]" = none ∧
     safe_json_loads "[\"a\\qb\", 1,]" = jsonLoads "[\"a\\\\qb\", 1]" ∧
     safe_json_loads "[\"a\\qb\", 1,]" = some (Val.vlist [Val.vstr "a\\qb", Val.vint 1])) ∧
    (∀ s, jsonLoads s = none → jsonLoads (clean_json_string s) = none →
      safe_json_loads s = none) := by
  refine ⟨fun s v h => ?_, ⟨rfl, rfl, rfl⟩, fun s h1 h2 => ?_⟩
  · simp [safe_json_loads, h]
  · simp [safe_json_loads, h1, h2]

/-- C6 witness: the amended theorem applied at a strictly-valid unit and at
an unparseable unit. -/
theorem c6_amended_witness :
    safe_json_loads "7" = some (Val.vint 7) ∧ safe_json_loads "xyz" = none :=
  ⟨c6_amended_repair_decode.1 "7" (Val.vint 7) rfl,
   c6_amended_repair_decode.2.2 "xyz" rfl rfl⟩

/-! ### C7: the listing bracket-depth split -/

/-- A well-formed listing payload whose second column name contains a `]`
inside its string value. -/
def c7badPayload : String :=
  "jsonp_data_listing(123, \"power\", [\"ID\",\"Na]me\"], [[\"p1\",\"x\"]])"

/-- A well-formed listing payload whose row values contain bracket
characters (the columns section is bracket-free). -/
def c7goodPayload : String :=
  "jsonp_data_listing(123, \"power\", [\"ID\",\"Name\"], [[\"p1\",\"a]b[c\"]])"

/-- C7 counterexample: the depth scan counts bracket characters textually,
so a `]` inside a column string value derails the split and the parser
returns the empty pair instead of the payload's columns and rows arrays. -/
theorem c7_counterexample_bracket_in_column_value :
    parse_listing c7badPayload = (Val.vlist [], Val.vlist []) ∧
    (Val.vlist [], Val.vlist []) ≠
      ((Val.vlist [Val.vstr "ID", Val.vstr "Na]me"],
        Val.vlist [Val.vlist [Val.vstr "p1", Val.vstr "x"]]) : Val × Val) := by
  refine ⟨rfl, fun h => ?_⟩
  simp at h

/-- A well-formed listing payload whose second column name contains a
balanced bracket pair `[b]` inside its string value. -/
def c7balancedPayload : String :=
  "jsonp_data_listing(123, \"power\", [\"ID\",\"a[b]c\"], [[\"r1\"]])"

/-- A well-formed listing payload whose second column name contains a lone
`[` inside its string value. -/
def c7loneOpenPayload : String :=
  "jsonp_data_listing(123, \"power\", [\"ID\",\"a[b\"], [[\"r1\"]])"

/-- Embeds `str.find` of a single character: scanning past a prefix free of
that character finds the first occurrence right after it. -/
theorem findSubIdx_single (ch : Char) :
    ∀ (l rest : List Char), (∀ c ∈ l, c ≠ ch) →
      findSubIdx [ch] (l ++ ch :: rest) = some l.length := by
  intro l
  induction l with
  | nil =>
    intro rest _
    simp [findSubIdx, prefOf, List.isPrefixOf]
  | cons c t ih =>
    intro rest hl
    have hc : c ≠ ch := hl c (List.mem_cons_self c t)
    have hcc : (ch == c) = false := beq_eq_false_iff_ne.mpr (fun hq => hc hq.symm)
    have ht : ∀ x ∈ t, x ≠ ch := fun x hx => hl x (List.mem_cons_of_mem c hx)
    simp [findSubIdx, prefOf, List.isPrefixOf, hcc, ih rest ht]

/-- The bracket-depth scan passes over bracket-free text advancing only its
index. -/
theorem columnsEndScan_skip :
    ∀ (body : List Char), (∀ c ∈ body, c ≠ '[' ∧ c ≠ ']') →
      ∀ (d : Int) (i : Nat) (rest : List Char),
        columnsEndScan d i (body ++ rest) = columnsEndScan d (i + body.length) rest := by
  intro body
  induction body with
  | nil => intro _ d i rest; simp
  | cons c t ih =>
    intro hb d i rest
    have h1 := hb c (List.mem_cons_self c t)
    have ht : ∀ x ∈ t, x ≠ '[' ∧ x ≠ ']' := fun x hx => hb x (List.mem_cons_of_mem c hx)
    rw [List.cons_append]
    rw [show columnsEndScan d i (c :: (t ++ rest)) = columnsEndScan d (i + 1) (t ++ rest) from by
      simp [columnsEndScan, h1.1, h1.2]]
    rw [ih ht d (i + 1) rest]
    have harith : i + 1 + t.length = i + (c :: t).length := by
      simp [List.length_cons]
      omega
    rw [harith]

/-- The depth opened by the columns bracket closes exactly at the matching
`]` when the column text between them is bracket-free. -/
theorem columnsEndScan_cols (colBody : List Char) (hcol : ∀ c ∈ colBody, c ≠ '[' ∧ c ≠ ']')
    (rest : List Char) :
    columnsEndScan 0 0 ('[' :: (colBody ++ ']' :: rest)) = some (colBody.length + 1) := by
  rw [show columnsEndScan 0 0 ('[' :: (colBody ++ ']' :: rest)) =
      columnsEndScan 1 1 (colBody ++ ']' :: rest) from by simp [columnsEndScan]]
  rw [columnsEndScan_skip colBody hcol 1 1 (']' :: rest)]
  simp [columnsEndScan, Nat.add_comm]

/-- `str.rstrip(ch)` does not touch a string ending in another character. -/
theorem pyRstripChar_last (l : List Char) (c ch : Char) (h : ¬c = ch) :
    pyRstripChar (String.mk (l ++ [c])) ch = String.mk (l ++ [c]) := by
  simp [pyRstripChar, List.dropWhile_cons, h]

/-- The general split: whenever the extracted argument text consists of a
bracket-free prefix, a columns array whose body contains no bracket
characters, a bracket-free separator and a rows array (whose body may
contain any brackets), the textual depth scan lands exactly on the columns
array's closing bracket and both arrays decode. -/
theorem parse_listing_clean_columns (content : String)
    (pre colBody sep rowBody : List Char) (cols rows : Val)
    (hex : extract_jsonp_payload content =
      some (String.mk (pre ++ '[' :: (colBody ++ ']' :: (sep ++ '[' :: (rowBody ++ [']']))))))
    (hpre : ∀ c ∈ pre, c ≠ '[')
    (hcol : ∀ c ∈ colBody, c ≠ '[' ∧ c ≠ ']')
    (hsep : ∀ c ∈ sep, c ≠ '[')
    (hcols : safe_json_loads (String.mk ('[' :: (colBody ++ [']']))) = some cols)
    (hrows : safe_json_loads (String.mk ('[' :: (rowBody ++ [']']))) = some rows) :
    parse_listing content = (cols, rows) := by
  have hne : ¬(String.mk (pre ++ '[' :: (colBody ++ ']' :: (sep ++ '[' :: (rowBody ++ [']'])))) = "") := by
    intro hcon
    have hdata := congrArg String.data hcon
    simp at hdata
  have hfind1 : findSubIdx ['['] (pre ++ '[' :: (colBody ++ ']' :: (sep ++ '[' :: (rowBody ++ [']']))))
      = some pre.length := findSubIdx_single '[' pre _ hpre
  have hdrop1 : (pre ++ '[' :: (colBody ++ ']' :: (sep ++ '[' :: (rowBody ++ [']'])))).drop pre.length
      = '[' :: (colBody ++ ']' :: (sep ++ '[' :: (rowBody ++ [']']))) := List.drop_left pre _
  have hscan : columnsEndScan 0 0 ('[' :: (colBody ++ ']' :: (sep ++ '[' :: (rowBody ++ [']']))))
      = some (colBody.length + 1) := columnsEndScan_cols colBody hcol _
  have hshape : '[' :: (colBody ++ ']' :: (sep ++ '[' :: (rowBody ++ [']'])))
      = ('[' :: (colBody ++ [']'])) ++ (sep ++ '[' :: (rowBody ++ [']'])) := by simp
  have hlen : ('[' :: (colBody ++ [']'])).length = colBody.length + 1 + 1 := by simp
  have htake : ('[' :: (colBody ++ ']' :: (sep ++ '[' :: (rowBody ++ [']'])))).take
        (colBody.length + 1 + 1) = '[' :: (colBody ++ [']']) := by
    rw [hshape]
    exact List.take_left' hlen
  have hdrop2 : ('[' :: (colBody ++ ']' :: (sep ++ '[' :: (rowBody ++ [']'])))).drop
        (colBody.length + 1 + 1) = sep ++ '[' :: (rowBody ++ [']']) := by
    rw [hshape]
    exact List.drop_left' hlen
  have hfind2 : findSubIdx ['['] (sep ++ '[' :: (rowBody ++ [']'])) = some sep.length :=
    findSubIdx_single '[' sep _ hsep
  have hdrop3 : (sep ++ '[' :: (rowBody ++ [']'])).drop sep.length = '[' :: (rowBody ++ [']']) :=
    List.drop_left sep _
  have hrstrip : pyRstripChar (String.mk ('[' :: (rowBody ++ [']']))) ')' =
      String.mk ('[' :: (rowBody ++ [']'])) := by
    rw [show '[' :: (rowBody ++ [']']) = ('[' :: rowBody) ++ [']'] from by simp]
    exact pyRstripChar_last ('[' :: rowBody) ']' ')' (by decide)
  simp only [parse_listing, hex, if_neg hne, hfind1, hdrop1, hscan, htake, hdrop2, hfind2,
    hdrop3, hrstrip, hcols, hrows]

/-- C7 (amended): the columns/rows boundary is found by counting bracket
characters textually, without string-literal awareness.  For every payload
whose extracted argument text has a bracket-free prefix and a columns
section containing no bracket character, the parser returns exactly the
decoded columns and rows arrays — row values may contain arbitrary bracket
characters; a balanced bracket pair inside a column string value leaves the
depth count intact and also parses exactly; but a lone (depth-unbalancing)
bracket inside a column string value shifts the count, derails the split
and yields the empty result. -/
theorem c7_textual_depth_split :
    (∀ (content : String) (pre colBody sep rowBody : List Char) (cols rows : Val),
      extract_jsonp_payload content =
        some (String.mk (pre ++ '[' :: (colBody ++ ']' :: (sep ++ '[' :: (rowBody ++ [']']))))) →
      (∀ c ∈ pre, c ≠ '[') → (∀ c ∈ colBody, c ≠ '[' ∧ c ≠ ']') → (∀ c ∈ sep, c ≠ '[') →
      safe_json_loads (String.mk ('[' :: (colBody ++ [']']))) = some cols →
      safe_json_loads (String.mk ('[' :: (rowBody ++ [']']))) = some rows →
      parse_listing content = (cols, rows)) ∧
    parse_listing c7balancedPayload =
      (Val.vlist [Val.vstr "ID", Val.vstr "a[b]c"],
       Val.vlist [Val.vlist [Val.vstr "r1"]]) ∧
    parse_listing c7loneOpenPayload = (Val.vlist [], Val.vlist []) :=
  ⟨fun content pre colBody sep rowBody cols rows hex hpre hcol hsep hcols hrows =>
    parse_listing_clean_columns content pre colBody sep rowBody cols rows hex hpre hcol
      hsep hcols hrows, rfl, rfl⟩

/-- C7 witness: the amended theorem's general clause applied at a concrete
payload whose row values contain both bracket characters. -/
theorem c7_witness :
    parse_listing c7goodPayload =
      (Val.vlist [Val.vstr "ID", Val.vstr "Name"],
       Val.vlist [Val.vlist [Val.vstr "p1", Val.vstr "a]b[c"]]) :=
  c7_textual_depth_split.1 c7goodPayload "123, \"power\", ".data "\"ID\",\"Name\"".data
    ", ".data "[\"p1\",\"a]b[c\"]".data
    (Val.vlist [Val.vstr "ID", Val.vstr "Name"])
    (Val.vlist [Val.vlist [Val.vstr "p1", Val.vstr "a]b[c"]])
    rfl (by decide) (by decide) (by decide) rfl rfl

/-! ### C8: targeted-defense extraction and the precedence slip -/

/-- C8: in `extract_defense_targeted` the text is
`(search_text or html_to_text(html_body)) if html_body else ""`, so an entry
with plain search text but no markup body extracts nothing, while the same
search text with any nonempty body extracts the defense — the claim (and
the sibling `extract_conditions`) expect search text to suffice on its own. -/
theorem c8_search_text_ignored_without_body :
    extract_defense_targeted "" "vs. Will" = (none, none) ∧
    extract_defense_targeted "x" "vs. Will" = (some "Will", some "high") ∧
    extract_defense_targeted "x" "hits VS aC hard" = (some "AC", some "high") ∧
    extract_defense_targeted "x" "no defense here" = (none, none) :=
  ⟨rfl, rfl, rfl, rfl⟩

/-! ### C5: resolution updates are additive -/

/-- C5: the in-place update phase can change only the resolved-id columns:
for every grants row the original external references and every other
column keep their prior values, and for every stat-addition and modifies
row only `granter_compendium_id` can change — whether or not resolution of
that row's references succeeded. -/
theorem c5_updates_touch_only_resolved_id_columns
    (comp : Compendium) (manual idToName : List (String × String))
    (g : GrantsRow) (s : StatAddRow) (m : ModifyRow) :
    ((updateGrantsRow comp manual idToName g).granter_xml_id = g.granter_xml_id ∧
     (updateGrantsRow comp manual idToName g).granted_xml_id = g.granted_xml_id ∧
     (updateGrantsRow comp manual idToName g).granter_type = g.granter_type ∧
     (updateGrantsRow comp manual idToName g).granter_name = g.granter_name ∧
     (updateGrantsRow comp manual idToName g).granted_type = g.granted_type ∧
     (updateGrantsRow comp manual idToName g).granted_name = g.granted_name ∧
     (updateGrantsRow comp manual idToName g).requires = g.requires ∧
     (updateGrantsRow comp manual idToName g).level = g.level ∧
     (updateGrantsRow comp manual idToName g).ordinal = g.ordinal ∧
     (updateGrantsRow comp manual idToName g).rowid = g.rowid) ∧
    ((updateStatAddRow comp manual idToName s).granter_xml_id = s.granter_xml_id ∧
     (updateStatAddRow comp manual idToName s).granter_type = s.granter_type ∧
     (updateStatAddRow comp manual idToName s).granter_name = s.granter_name ∧
     (updateStatAddRow comp manual idToName s).stat_name = s.stat_name ∧
     (updateStatAddRow comp manual idToName s).value = s.value ∧
     (updateStatAddRow comp manual idToName s).bonus_type = s.bonus_type ∧
     (updateStatAddRow comp manual idToName s).requires = s.requires ∧
     (updateStatAddRow comp manual idToName s).ordinal = s.ordinal ∧
     (updateStatAddRow comp manual idToName s).rowid = s.rowid) ∧
    ((updateModifyRow comp manual idToName m).granter_xml_id = m.granter_xml_id ∧
     (updateModifyRow comp manual idToName m).granter_type = m.granter_type ∧
     (updateModifyRow comp manual idToName m).granter_name = m.granter_name ∧
     (updateModifyRow comp manual idToName m).target_name = m.target_name ∧
     (updateModifyRow comp manual idToName m).target_type = m.target_type ∧
     (updateModifyRow comp manual idToName m).field = m.field ∧
     (updateModifyRow comp manual idToName m).value = m.value ∧
     (updateModifyRow comp manual idToName m).list_addition = m.list_addition ∧
     (updateModifyRow comp manual idToName m).requires = m.requires ∧
     (updateModifyRow comp manual idToName m).ordinal = m.ordinal ∧
     (updateModifyRow comp manual idToName m).rowid = m.rowid) := by
  refine ⟨?_, ?_, ?_⟩
  · by_cases hc : (resolveCached comp manual idToName (some g.granter_xml_id)).isSome ∨
        (resolveCached comp manual idToName (some g.granted_xml_id)).isSome
    · simp [updateGrantsRow, hc]
    · simp [updateGrantsRow, hc]
  · cases hr : resolveCached comp manual idToName (some s.granter_xml_id) with
    | some c => simp [updateStatAddRow, hr]
    | none => simp [updateStatAddRow, hr]
  · cases hr : resolveCached comp manual idToName (some m.granter_xml_id) with
    | some c => simp [updateModifyRow, hr]
    | none => simp [updateModifyRow, hr]

/-! ### C10: cell-value normalisation is total and list-free -/

/-- Embeds `normalize_value` never returns a list. -/
theorem normalize_value_not_list (v : Val) : ∀ ys, normalize_value v ≠ Val.vlist ys := by
  intro ys
  cases v with
  | vlist xs => cases xs <;> simp [normalize_value]
  | vnull => simp [normalize_value]
  | vbool b => simp [normalize_value]
  | vint n => simp [normalize_value]
  | vstr s => simp [normalize_value]
  | vobj fs => simp [normalize_value]

/-- Embeds `optIntV` never returns a list. -/
theorem optIntV_not_list (o : Option Int) : ∀ ys, optIntV o ≠ Val.vlist ys := by
  intro ys
  cases o <;> simp [optIntV]

/-- A dict update preserves a valuewise invariant. -/
theorem aset_preserves {α : Type} (P : α → Prop) (l : List (String × α)) (k : String)
    (v : α) (hl : ∀ kv ∈ l, P kv.2) (hv : P v) : ∀ kv ∈ aset l k v, P kv.2 := by
  intro kv hkv
  unfold aset at hkv
  split at hkv
  · rcases List.mem_map.mp hkv with ⟨kv0, hkv0, heq⟩
    by_cases hk : kv0.1 = k
    · rw [if_pos hk] at heq
      rw [← heq]
      exact hv
    · rw [if_neg hk] at heq
      rw [← heq]
      exact hl kv0 hkv0
  · rcases List.mem_append.mp hkv with hmem | hmem
    · exact hl kv hmem
    · simp only [List.mem_singleton] at hmem
      rw [hmem]
      exact hv

/-- Every value computed for a generic row insert is list-free. -/
theorem insertGenericValues_no_lists (cm : List (String × String)) (columns : List Val)
    (hb st2 : List (String × String)) (row : List Val) :
    ∀ kv ∈ insertGenericValues cm columns hb st2 row, ∀ ys, kv.2 ≠ Val.vlist ys := by
  have key : ∀ (l : List (String × String)) (acc : Row),
      (∀ kv ∈ acc, ∀ ys, kv.2 ≠ Val.vlist ys) →
      ∀ kv ∈ l.foldl (fun acc kv =>
        match colMapGet columns kv.2 with
        | some idx =>
          if idx < row.length then
            aset acc kv.1 (normalize_value ((row.get? idx).getD Val.vnull))
          else aset acc kv.1 Val.vnull
        | none => aset acc kv.1 Val.vnull) acc, ∀ ys, kv.2 ≠ Val.vlist ys := by
    intro l
    induction l with
    | nil => intro acc hacc; simpa using hacc
    | cons hd tl ih =>
      intro acc hacc
      simp only [List.foldl_cons]
      apply ih
      cases hcg : colMapGet columns hd.2 with
      | none =>
        simp only [hcg]
        exact aset_preserves (fun v => ∀ ys, v ≠ Val.vlist ys) acc hd.1 Val.vnull hacc
          (by simp)
      | some idx =>
        simp only [hcg]
        by_cases hlt : idx < row.length
        · rw [if_pos hlt]
          exact aset_preserves (fun v => ∀ ys, v ≠ Val.vlist ys) acc hd.1 _ hacc
            (normalize_value_not_list ((row.get? idx).getD Val.vnull))
        · rw [if_neg hlt]
          exact aset_preserves (fun v => ∀ ys, v ≠ Val.vlist ys) acc hd.1 Val.vnull hacc
            (by simp)
  simp only [insertGenericValues]
  split
  · apply aset_preserves (fun v => ∀ ys, v ≠ Val.vlist ys)
    · apply aset_preserves (fun v => ∀ ys, v ≠ Val.vlist ys)
      · apply aset_preserves (fun v => ∀ ys, v ≠ Val.vlist ys)
        · exact key cm [] (by simp)
        · simp
      · simp
    · exact optIntV_not_list _
  · apply aset_preserves (fun v => ∀ ys, v ≠ Val.vlist ys)
    · apply aset_preserves (fun v => ∀ ys, v ≠ Val.vlist ys)
      · exact key cm [] (by simp)
      · simp
    · simp

/-- C10: `normalize_value` is total over null, list and scalar inputs —
null stays null, an empty list becomes null, a nonempty list becomes the
string form of its first element, any other scalar passes unchanged, the
result is never a list — and every column value computed for a generic row
insert is list-free. -/
theorem c10_normalize_value_total_and_list_free (v x : Val) (xs : List Val)
    (cm : List (String × String)) (columns : List Val)
    (hb st2 : List (String × String)) (row : List Val) :
    normalize_value Val.vnull = Val.vnull ∧
    normalize_value (Val.vlist []) = Val.vnull ∧
    normalize_value (Val.vlist (x :: xs)) = Val.vstr (pyStr x) ∧
    ((∀ ys, v ≠ Val.vlist ys) → normalize_value v = v) ∧
    (∀ ys, normalize_value v ≠ Val.vlist ys) ∧
    (∀ kv ∈ insertGenericValues cm columns hb st2 row, ∀ ys, kv.2 ≠ Val.vlist ys) := by
  refine ⟨rfl, rfl, rfl, ?_, normalize_value_not_list v,
    insertGenericValues_no_lists cm columns hb st2 row⟩
  intro hnl
  cases v with
  | vlist ws => exact absurd rfl (hnl ws)
  | vnull => rfl
  | vbool b => rfl
  | vint n => rfl
  | vstr s => rfl
  | vobj fs => rfl

/-- C10 witness: the theorem applied at concrete scalar and list inputs. -/
theorem c10_witness :
    normalize_value (Val.vstr "Heroic") = Val.vstr "Heroic" ∧
    normalize_value (Val.vlist [Val.vstr "360+ gp", Val.vint 360]) ≠ Val.vlist [] :=
  ⟨(c10_normalize_value_total_and_list_free (Val.vstr "Heroic") Val.vnull [] [] [] [] [] []).2.2.2.1
      (fun ys h => Val.noConfusion h),
   (c10_normalize_value_total_and_list_free (Val.vlist [Val.vstr "360+ gp", Val.vint 360])
      Val.vnull [] [] [] [] [] []).2.2.2.2.1 []⟩

/-! ### C1 and C2: the resolution cascade -/

/-- A string starting with a nonempty prefix is nonempty. -/
theorem append_ne_empty (a b : String) (ha : a.data ≠ []) : a ++ b ≠ "" := by
  intro h
  have h2 := congrArg String.data h
  rw [String.data_append] at h2
  rcases List.append_eq_nil.mp h2 with ⟨h3, _⟩
  exact ha h3

/-- Every direct-derivation entry of the type table has a nonempty table
name and id prefix. -/
theorem typeMap_entry_nonempty (tp table pfx : String)
    (h : alookup TYPE_MAP tp = some (some table, some pfx)) :
    table ≠ "" ∧ pfx.data ≠ [] := by
  unfold alookup at h
  rcases Option.map_eq_some'.mp h with ⟨a, hfind, ha2⟩
  have hmem : a ∈ TYPE_MAP := List.mem_of_find?_eq_some hfind
  fin_cases hmem <;> simp_all [TYPE_MAP] <;>
    (obtain ⟨h1, h2⟩ := ha2; subst h1; subst h2; exact ⟨by decide, by decide⟩)

/-- A successfully derived candidate id and table are nonempty strings. -/
theorem derive_candidate_nonempty (x cid tbl : String)
    (h : xml_to_compendium_id x = ⟨some cid, some tbl, none⟩) :
    cid ≠ "" ∧ tbl ≠ "" := by
  unfold xml_to_compendium_id at h
  by_cases h1 : x = ""
  · rw [if_pos h1] at h
    simp at h
  · rw [if_neg h1] at h
    by_cases h2 : ¬containsSub x "ID_FMP_" = true
    · rw [if_pos h2] at h
      simp at h
    · rw [if_neg h2] at h
      split at h
      · simp at h
      · split at h
        · simp at h
        · split at h
          next table0 pfx0 heq =>
            simp only [DeriveOut.mk.injEq, Option.some.injEq] at h
            obtain ⟨hc, ht, -⟩ := h
            obtain ⟨htbl, hpfx⟩ := typeMap_entry_nonempty _ table0 pfx0 heq
            subst hc
            subst ht
            exact ⟨append_ne_empty _ _ hpfx, htbl⟩
          next =>
            simp at h

/-- C1: an external reference resolvable both by direct derivation (its
derived candidate exists in the store) and by a manual-override entry is
recorded as `matched` with method `id`, never `matched_manual` — the
cascade tries direct derivation strictly before the override. -/
theorem c1_direct_id_beats_manual_override
    (comp : Compendium) (manual idToName : List (String × String))
    (x cid tbl : String)
    (hderive : xml_to_compendium_id x = ⟨some cid, some tbl, none⟩)
    (hstore : validIdsContains (buildValidIds comp) tbl cid = true)
    (hmanual : (alookup manual x).isSome) :
    (logEntryFor comp manual idToName x).status = "matched" ∧
    (logEntryFor comp manual idToName x).resolution_method = some "id" ∧
    (logEntryFor comp manual idToName x).status ≠ "matched_manual" := by
  obtain ⟨hcid, htbl⟩ := derive_candidate_nonempty x cid tbl hderive
  simp only [logEntryFor, hderive]
  rw [if_pos ⟨hcid, htbl, hstore⟩]
  refine ⟨rfl, rfl, by simp⟩

/-- The store of the C1 witness: the derived candidate `power435` exists. -/
def c1comp : Compendium :=
  { tables := [("powers", [{ id := "power435", name := "Example Power" }])]
    nameIndex := [] }

/-- The manual-override table of the C1 witness: it also maps the same
reference (to a different id). -/
def c1manual : List (String × String) := [("ID_FMP_POWER_435", "feat1")]

/-- C1 witness: the theorem applied at the concrete doubly-resolvable
reference. -/
theorem c1_witness :
    (logEntryFor c1comp c1manual [] "ID_FMP_POWER_435").status = "matched" ∧
    (logEntryFor c1comp c1manual [] "ID_FMP_POWER_435").resolution_method = some "id" ∧
    (logEntryFor c1comp c1manual [] "ID_FMP_POWER_435").status ≠ "matched_manual" :=
  c1_direct_id_beats_manual_override c1comp c1manual [] "ID_FMP_POWER_435"
    "power435" "powers" rfl rfl rfl

/-- C2: a reference whose derivation yields an unmappable reason is logged
exactly as `unmappable` with that reason, a null attempted id and no
method, and its log row is independent of the whole resolution environment
(in particular no name search is attempted); a reference with a recognised
tag whose candidate is absent from the store, with no manual override and a
failing name search, is logged as `not_found` with the non-null attempted
candidate id. -/
theorem c2_unmappable_vs_not_found
    (comp : Compendium) (manual idToName : List (String × String)) (x : String) :
    (∀ r, (xml_to_compendium_id x).reason = some r →
      (logEntryFor comp manual idToName x).status = "unmappable" ∧
      (logEntryFor comp manual idToName x).attempted_compendium_id = none ∧
      (logEntryFor comp manual idToName x).unmappable_reason = some r ∧
      (logEntryFor comp manual idToName x).resolution_method = none ∧
      (∀ (co : Compendium) (mo no : List (String × String)),
        logEntryFor co mo no x = logEntryFor comp manual idToName x)) ∧
    (∀ cid tbl, xml_to_compendium_id x = ⟨some cid, some tbl, none⟩ →
      validIdsContains (buildValidIds comp) tbl cid = false →
      alookup manual x = none →
      nameSearchOutcome comp (buildValidIds comp) idToName x (some cid) = none →
      (logEntryFor comp manual idToName x).status = "not_found" ∧
      (logEntryFor comp manual idToName x).attempted_compendium_id = some cid) := by
  constructor
  · intro r hr
    rcases hd : xml_to_compendium_id x with ⟨ci, ta, re⟩
    rw [hd] at hr
    have hre : re = some r := hr
    subst hre
    have hrow : ∀ (co : Compendium) (mo no : List (String × String)),
        logEntryFor co mo no x =
          { xml_id := x, attempted_compendium_id := none, resolved_compendium_id := none,
            compendium_table := none, status := "unmappable", resolution_method := none,
            unmappable_reason := some r } := by
      intro co mo no
      simp only [logEntryFor, hd]
    rw [hrow comp manual idToName]
    refine ⟨rfl, rfl, rfl, rfl, fun co mo no => ?_⟩
    rw [hrow co mo no]
  · intro cid tbl hderive hvalid hmanualNone houtcome
    have hrow : logEntryFor comp manual idToName x =
        resolveElseBranch comp (buildValidIds comp) manual idToName x (some cid) (some tbl) := by
      simp only [logEntryFor, hderive]
      rw [if_neg (by simp [hvalid])]
    have h2 : resolveElseBranch comp (buildValidIds comp) manual idToName x
        (some cid) (some tbl) =
        { xml_id := x, attempted_compendium_id := some cid,
          resolved_compendium_id := none,
          compendium_table := if tbl ≠ "" then some tbl else none,
          status := "not_found", resolution_method := none,
          unmappable_reason := none } := by
      simp only [resolveElseBranch, hmanualNone, resolveNameSearchPart, houtcome]
    rw [hrow, h2]
    exact ⟨rfl, rfl⟩

/-- The empty store of the C2 witness. -/
def c2comp : Compendium := { tables := [], nameIndex := [] }

/-- C2 witness: the theorem applied at a non-authoring-prefix reference and
at a recognised reference whose candidate the store lacks. -/
theorem c2_witness :
    ((logEntryFor c2comp [] [] "ID_INTERNAL_FOO_1").status = "unmappable" ∧
     (logEntryFor c2comp [] [] "ID_INTERNAL_FOO_1").attempted_compendium_id = none ∧
     (logEntryFor c2comp [] [] "ID_INTERNAL_FOO_1").unmappable_reason =
       some "non-FMP prefix (ID_INTERNAL)" ∧
     (logEntryFor c2comp [] [] "ID_INTERNAL_FOO_1").resolution_method = none ∧
     (∀ (co : Compendium) (mo no : List (String × String)),
       logEntryFor co mo no "ID_INTERNAL_FOO_1" = logEntryFor c2comp [] [] "ID_INTERNAL_FOO_1")) ∧
    ((logEntryFor c2comp [] [] "ID_FMP_POWER_9").status = "not_found" ∧
     (logEntryFor c2comp [] [] "ID_FMP_POWER_9").attempted_compendium_id = some "power9") :=
  ⟨(c2_unmappable_vs_not_found c2comp [] [] "ID_INTERNAL_FOO_1").1
      "non-FMP prefix (ID_INTERNAL)" rfl,
   (c2_unmappable_vs_not_found c2comp [] [] "ID_FMP_POWER_9").2
      "power9" "powers" rfl rfl rfl rfl⟩

/-! ### C9: directives missing required attributes -/

/-- Dropping a directive that the extractor skips (one of the three kinds
missing a required attribute) leaves the emitted edges unchanged, at any
position and any starting ordinal. -/
theorem processDirectives_skip (gid gty : String) (gname : Option String)
    (m : List (String × String)) (d : Directive) (hs : directiveSkipped d = true) :
    ∀ (xs ys : List Directive) (o : Nat),
      processDirectives gid gty gname m (xs ++ d :: ys) o =
        processDirectives gid gty gname m (xs ++ ys) o := by
  intro xs
  induction xs with
  | nil =>
    intro ys o
    simp only [List.nil_append]
    by_cases h1 : pyLower d.tag = "grant"
    · rcases hn : safe_str (dget d "name") with _ | nv
      · simp [processDirectives, h1, hn]
      · rcases ht : safe_str (dget d "type") with _ | tv
        · simp [processDirectives, h1, hn, ht]
        · exfalso
          simp [directiveSkipped, h1, hn, ht] at hs
    · by_cases h2 : pyLower d.tag = "statadd"
      · rcases hn : safe_str (dget d "name") with _ | nv
        · simp [processDirectives, h1, h2, hn]
        · rcases hv : safe_str (dget d "value") with _ | vv
          · simp [processDirectives, h1, h2, hn, hv]
          · exfalso
            simp [directiveSkipped, h1, h2, hn, hv] at hs
      · by_cases h3 : pyLower d.tag = "modify"
        · rcases hn : safe_str (dget d "name") with _ | nv
          · simp [processDirectives, h1, h2, h3, hn]
          · rcases hf : safe_str (pyOrStr (dget d "Field") (dget d "field")) with _ | fv
            · simp [processDirectives, h1, h2, h3, hn, hf]
            · exfalso
              simp [directiveSkipped, h1, h2, h3, hn, hf] at hs
        · exfalso
          simp [directiveSkipped, h1, h2, h3] at hs
  | cons hd tl ih =>
    intro ys o
    simp only [List.cons_append]
    by_cases h1 : pyLower hd.tag = "grant"
    · rcases hn : safe_str (dget hd "name") with _ | nv
      · simp [processDirectives, h1, hn, ih]
      · rcases ht : safe_str (dget hd "type") with _ | tv
        · simp [processDirectives, h1, hn, ht, ih]
        · simp [processDirectives, h1, hn, ht, ih]
    · by_cases h2 : pyLower hd.tag = "statadd"
      · rcases hn : safe_str (dget hd "name") with _ | nv
        · simp [processDirectives, h1, h2, hn, ih]
        · rcases hv : safe_str (dget hd "value") with _ | vv
          · simp [processDirectives, h1, h2, hn, hv, ih]
          · simp [processDirectives, h1, h2, hn, hv, ih]
      · by_cases h3 : pyLower hd.tag = "modify"
        · rcases hn : safe_str (dget hd "name") with _ | nv
          · simp [processDirectives, h1, h2, h3, hn, ih]
          · rcases hf : safe_str (pyOrStr (dget hd "Field") (dget hd "field")) with _ | fv
            · simp [processDirectives, h1, h2, h3, hn, hf, ih]
            · simp [processDirectives, h1, h2, h3, hn, hf, ih]
        · simp [processDirectives, h1, h2, h3, ih]

/-- Dropping a skipped directive leaves one element's edges unchanged. -/
theorem process_rules_element_skip (m : List (String × String)) (e : RulesElement)
    (xs ys : List Directive) (d : Directive)
    (hr : e.rules = some (xs ++ d :: ys)) (hs : directiveSkipped d = true) :
    process_rules_element m e =
      process_rules_element m { e with rules := some (xs ++ ys) } := by
  rcases hi : safe_str e.internalId with _ | gid
  · simp [process_rules_element, hi]
  · rcases ht2 : safe_str e.elemType with _ | gty
    · simp [process_rules_element, hi, ht2]
    · simp only [process_rules_element, hi, ht2, hr]
      exact processDirectives_skip gid gty (safe_str e.elemName) m d hs xs ys 0

/-- C9 (amended): a rule directive missing a required attribute (a grant
without a target reference or type, a stat addition without a name or value,
a modification without a target name or field) is skipped silently — the
source logs nothing on that path — and processing of the remaining sibling
directives and all other elements continues: the emitted edges (and the
error log) are exactly those of the input with the directive absent. -/
theorem c9_missing_attr_directive_dropped
    (e : RulesElement) (xs ys : List Directive) (d : Directive)
    (hr : e.rules = some (xs ++ d :: ys)) (hs : directiveSkipped d = true)
    (es1 es2 : List RulesElement) :
    (∀ m, process_rules_element m e =
      process_rules_element m { e with rules := some (xs ++ ys) }) ∧
    mainExtract (es1 ++ e :: es2) =
      mainExtract (es1 ++ { e with rules := some (xs ++ ys) } :: es2) := by
  have hel : ∀ m, process_rules_element m e =
      process_rules_element m { e with rules := some (xs ++ ys) } :=
    fun m => process_rules_element_skip m e xs ys d hr hs
  refine ⟨hel, ?_⟩
  unfold mainExtract
  have hmap : buildIdToName (es1 ++ e :: es2) =
      buildIdToName (es1 ++ { e with rules := some (xs ++ ys) } :: es2) := by
    unfold buildIdToName
    rw [List.foldl_append, List.foldl_append]
    rfl
  rw [← hmap]
  have hedges : extractAll (buildIdToName (es1 ++ e :: es2)) (es1 ++ e :: es2) =
      extractAll (buildIdToName (es1 ++ e :: es2))
        (es1 ++ { e with rules := some (xs ++ ys) } :: es2) := by
    unfold extractAll
    rw [List.foldl_append, List.foldl_append]
    simp only [List.foldl_cons]
    rw [hel]
  rw [hedges]

/-- A complete grant directive. -/
def c9goodGrant : Directive :=
  { tag := "grant", attrs := [("name", "ID_FMP_POWER_2"), ("type", "POWER")] }

/-- A grant directive missing its required target type. -/
def c9badGrant : Directive :=
  { tag := "grant", attrs := [("name", "ID_FMP_POWER_3")] }

/-- A complete stat-addition directive following the bad one. -/
def c9statadd : Directive :=
  { tag := "statadd", attrs := [("name", "AC"), ("value", "1")] }

/-- An element whose middle directive is the incomplete grant. -/
def c9elemFull : RulesElement :=
  { internalId := some "ID_FMP_FEAT_1", elemType := some "FEAT",
    elemName := some "Feat One", rules := some [c9goodGrant, c9badGrant, c9statadd] }

/-- C9 counterexample: on a concrete element whose middle grant directive
lacks its target type, the run's emitted edges are exactly the two edges of
the complete directives (with consecutive ordinals) and the run's error log
is empty — no log record exists for the skipped directive, so the claim's
"logs it" conjunct fails. -/
theorem c9_counterexample_skipped_directive_unlogged :
    (mainExtract [c9elemFull]).2 = [] ∧
    (mainExtract [c9elemFull]).1 =
      [RuleEdge.grant
        { granter_xml_id := "ID_FMP_FEAT_1", granter_type := "FEAT",
          granter_name := some "Feat One", granted_xml_id := "ID_FMP_POWER_2",
          granted_type := "POWER", granted_name := none, requires := none,
          level := none, ordinal := 0 },
       RuleEdge.statadd
        { granter_xml_id := "ID_FMP_FEAT_1", granter_type := "FEAT",
          granter_name := some "Feat One", stat_name := "AC", value := "1",
          bonus_type := none, requires := none, ordinal := 1 }] :=
  ⟨rfl, rfl⟩

/-- C9 witness: the amended theorem applied at the concrete element. -/
theorem c9_witness :
    (∀ m, process_rules_element m c9elemFull =
      process_rules_element m { c9elemFull with rules := some ([c9goodGrant] ++ [c9statadd]) }) ∧
    mainExtract ([] ++ c9elemFull :: []) =
      mainExtract ([] ++ { c9elemFull with rules := some ([c9goodGrant] ++ [c9statadd]) } :: []) :=
  c9_missing_attr_directive_dropped c9elemFull [c9goodGrant] [c9statadd] c9badGrant
    rfl rfl [] []

/-! ### C4: rebuild determinism, the wall clock, and set-iteration order -/

/-- `List.any` is invariant under permutation. -/
theorem perm_any_eq {α : Type} {l1 l2 : List α} (h : l1.Perm l2) (p : α → Bool) :
    l1.any p = l2.any p := by
  induction h with
  | nil => rfl
  | cons x h ih => simp [List.any_cons, ih]
  | swap x y t => simp [List.any_cons]; cases p x <;> cases p y <;> simp
  | trans h1 h2 ih1 ih2 => exact ih1.trans ih2

/-- `INSERT OR IGNORE` of one key respects permutation of the tag table. -/
theorem insertOrIgnorePair_perm {a b : List (Val × String)} (h : a.Perm b)
    (k : Val × String) : (insertOrIgnorePair a k).Perm (insertOrIgnorePair b k) := by
  unfold insertOrIgnorePair
  rw [perm_any_eq h]
  split
  · exact h
  · exact h.append_right [k]

/-- Folding tag inserts of one entry over a fixed key list respects
permutation of the accumulating table. -/
theorem tagFold_perm_acc (e : Val) (l : List String) :
    ∀ {a b : List (Val × String)}, a.Perm b →
      (l.foldl (fun acc dt => insertOrIgnorePair acc (e, dt)) a).Perm
        (l.foldl (fun acc dt => insertOrIgnorePair acc (e, dt)) b) := by
  induction l with
  | nil => intro a b h; exact h
  | cons x t ih => intro a b h; exact ih (insertOrIgnorePair_perm h (e, x))

/-- Two `INSERT OR IGNORE` tag inserts of the same entry commute up to
permutation of the table. -/
theorem insertOrIgnorePair_swap (e : Val) (x y : String) (a : List (Val × String)) :
    (insertOrIgnorePair (insertOrIgnorePair a (e, y)) (e, x)).Perm
      (insertOrIgnorePair (insertOrIgnorePair a (e, x)) (e, y)) := by
  by_cases hy : a.any (fun p => beqVal p.1 e && p.2 == y) = true
  · by_cases hx : a.any (fun p => beqVal p.1 e && p.2 == x) = true
    · have hq : insertOrIgnorePair (insertOrIgnorePair a (e, y)) (e, x)
          = insertOrIgnorePair (insertOrIgnorePair a (e, x)) (e, y) := by
        simp [insertOrIgnorePair, hy, hx]
      rw [hq]
    · have hq : insertOrIgnorePair (insertOrIgnorePair a (e, y)) (e, x)
          = insertOrIgnorePair (insertOrIgnorePair a (e, x)) (e, y) := by
        simp [insertOrIgnorePair, hy, hx, List.any_append]
      rw [hq]
  · by_cases hx : a.any (fun p => beqVal p.1 e && p.2 == x) = true
    · have hq : insertOrIgnorePair (insertOrIgnorePair a (e, y)) (e, x)
          = insertOrIgnorePair (insertOrIgnorePair a (e, x)) (e, y) := by
        simp [insertOrIgnorePair, hy, hx, List.any_append]
      rw [hq]
    · by_cases hee : beqVal e e = true
      · by_cases hxy : x = y
        · subst hxy
          have hq : insertOrIgnorePair (insertOrIgnorePair a (e, x)) (e, x)
              = insertOrIgnorePair (insertOrIgnorePair a (e, x)) (e, x) := rfl
          rw [hq]
        · have hyx : (y == x) = false := beq_eq_false_iff_ne.mpr (fun hc => hxy hc.symm)
          have hxy2 : (x == y) = false := beq_eq_false_iff_ne.mpr hxy
          have hL : insertOrIgnorePair (insertOrIgnorePair a (e, y)) (e, x)
              = a ++ [(e, y), (e, x)] := by
            simp [insertOrIgnorePair, hy, hx, List.any_append, hee, hyx]
          have hR : insertOrIgnorePair (insertOrIgnorePair a (e, x)) (e, y)
              = a ++ [(e, x), (e, y)] := by
            simp [insertOrIgnorePair, hy, hx, List.any_append, hee, hxy2]
          rw [hL, hR]
          exact List.Perm.append_left a (List.Perm.swap _ _ _)
      · have hee2 : beqVal e e = false := by
          cases hb : beqVal e e
          · rfl
          · exact absurd hb hee
        have hL : insertOrIgnorePair (insertOrIgnorePair a (e, y)) (e, x)
            = a ++ [(e, y), (e, x)] := by
          simp [insertOrIgnorePair, hy, hx, List.any_append, hee2]
        have hR : insertOrIgnorePair (insertOrIgnorePair a (e, x)) (e, y)
            = a ++ [(e, x), (e, y)] := by
          simp [insertOrIgnorePair, hy, hx, List.any_append, hee2]
        rw [hL, hR]
        exact List.Perm.append_left a (List.Perm.swap _ _ _)

/-- Folding tag inserts of one entry over permuted key lists, starting from
permuted tables, yields permuted tables: the tag rows a power row inserts
form the same set whatever order the found-set iterates in. -/
theorem tagFold_perm (e : Val) {l1 l2 : List String} (hl : l1.Perm l2) :
    ∀ {a b : List (Val × String)}, a.Perm b →
      (l1.foldl (fun acc dt => insertOrIgnorePair acc (e, dt)) a).Perm
        (l2.foldl (fun acc dt => insertOrIgnorePair acc (e, dt)) b) := by
  induction hl with
  | nil => intro a b h; exact h
  | cons x h ih => intro a b hab; exact ih (insertOrIgnorePair_perm hab (e, x))
  | swap x y t =>
    intro a b hab
    exact tagFold_perm_acc e t
      ((insertOrIgnorePair_perm (insertOrIgnorePair_perm hab (e, y)) (e, x)).trans
        (insertOrIgnorePair_swap e x y b))
  | trans h1 h2 ih1 ih2 =>
    intro a b hab
    exact (ih1 (List.Perm.refl a)).trans (ih2 hab)

/-- A non-string keyword value makes `extract_damage_types` independent of
the set-iteration order. -/
theorem extract_damage_types_nonstr (σ : List String → List String) (k : Val)
    (hb sb : String) (hk : ∀ s, k ≠ Val.vstr s) :
    extract_damage_types σ k hb sb = if pyTruthy k then none else some ([], []) := by
  cases k with
  | vstr s => exact absurd rfl (hk s)
  | vnull => rfl
  | vbool b => rfl
  | vint n => rfl
  | vlist l => rfl
  | vobj o => rfl

/-- Under two set-iteration orders, `extract_damage_types` fails on the same
inputs, and on success returns found lists and source lists that are
permutations of each other. -/
theorem extract_damage_types_cases (σ1 σ2 : List String → List String)
    (h1 : ∀ l, (σ1 l).Perm l) (h2 : ∀ l, (σ2 l).Perm l) (k : Val) (hb sb : String) :
    (extract_damage_types σ1 k hb sb = none ∧ extract_damage_types σ2 k hb sb = none) ∨
    (∃ d1 s1 d2 s2, extract_damage_types σ1 k hb sb = some (d1, s1) ∧
      extract_damage_types σ2 k hb sb = some (d2, s2) ∧ d1.Perm d2 ∧ s1.Perm s2) := by
  have rest : ∀ v : Val, (∀ s, v ≠ Val.vstr s) →
      (extract_damage_types σ1 v hb sb = none ∧ extract_damage_types σ2 v hb sb = none) ∨
      (∃ d1 s1 d2 s2, extract_damage_types σ1 v hb sb = some (d1, s1) ∧
        extract_damage_types σ2 v hb sb = some (d2, s2) ∧ d1.Perm d2 ∧ s1.Perm s2) := by
    intro v hv
    rw [extract_damage_types_nonstr σ1 v hb sb hv, extract_damage_types_nonstr σ2 v hb sb hv]
    by_cases ht : pyTruthy v = true
    · left; rw [if_pos ht]; exact ⟨rfl, rfl⟩
    · right
      rw [if_neg ht]
      exact ⟨[], [], [], [], rfl, rfl, List.Perm.nil, List.Perm.nil⟩
  match k with
  | .vstr s =>
    by_cases hs : s = ""
    · right
      exact ⟨[], [], [], [], by simp [extract_damage_types, hs],
        by simp [extract_damage_types, hs], List.Perm.nil, List.Perm.nil⟩
    · right
      have hperm : ((σ1 DAMAGE_TYPES).filter (fun dt => containsSub (pyLower s) dt)).Perm
          ((σ2 DAMAGE_TYPES).filter (fun dt => containsSub (pyLower s) dt)) :=
        ((h1 DAMAGE_TYPES).trans (h2 DAMAGE_TYPES).symm).filter _
      refine ⟨(σ1 DAMAGE_TYPES).filter (fun dt => containsSub (pyLower s) dt),
        ((σ1 DAMAGE_TYPES).filter (fun dt => containsSub (pyLower s) dt)).map
          (fun dt => ("keyword", dt, "high")),
        (σ2 DAMAGE_TYPES).filter (fun dt => containsSub (pyLower s) dt),
        ((σ2 DAMAGE_TYPES).filter (fun dt => containsSub (pyLower s) dt)).map
          (fun dt => ("keyword", dt, "high")), ?_, ?_, hperm, hperm.map _⟩
      · simp [extract_damage_types, hs]
      · simp [extract_damage_types, hs]
  | .vnull => exact rest Val.vnull (fun s h => nomatch h)
  | .vbool b => exact rest (Val.vbool b) (fun s h => nomatch h)
  | .vint n => exact rest (Val.vint n) (fun s h => nomatch h)
  | .vlist l => exact rest (Val.vlist l) (fun s h => nomatch h)
  | .vobj o => exact rest (Val.vobj o) (fun s h => nomatch h)

/-- Agreement of two build cores up to set-iteration order: all contents are
equal except the set-derived tag tables and the parse log, which agree up to
permutation of their rows. -/
def CoreAgrees (a b : StoreCore) : Prop :=
  a.tables = b.tables ∧ a.power_keywords = b.power_keywords ∧
  a.power_damage_types.Perm b.power_damage_types ∧
  a.power_conditions.Perm b.power_conditions ∧
  a.name_index = b.name_index ∧ a.categories = b.categories ∧
  a.parse_log.Perm b.parse_log

/-- One power row preserves core agreement: its guards and main insert are
set-order-independent, and the set-iterated tag inserts and log appends
move rows only within a permutation. -/
theorem insertPowerRow_agrees (σ1 σ2 : List String → List String)
    (h1 : ∀ l, (σ1 l).Perm l) (h2 : ∀ l, (σ2 l).Perm l)
    (columns : List Val) (htmlBodies searchTexts : List (String × String))
    {st1 st2 : StoreCore} (hA : CoreAgrees st1 st2) (rowV : Val) :
    CoreAgrees (insertPowerRow σ1 columns htmlBodies searchTexts st1 rowV)
      (insertPowerRow σ2 columns htmlBodies searchTexts st2 rowV) := by
  obtain ⟨hT, hK, hD, hC, hN, hG, hL⟩ := hA
  cases rowV with
  | vlist row =>
    cases hid : row.get? (colMapGetD columns "ID" 0) with
    | none =>
      simp only [insertPowerRow, hid]
      exact ⟨hT, hK, hD, hC, hN, hG, hL⟩
    | some rawId =>
      cases hpt : extract_power_type (normalize_value (cellOr row (colMapGetD columns "Type" 4))) with
      | none =>
        simp only [insertPowerRow, hid, hpt]
        exact ⟨hT, hK, hD, hC, hN, hG, hL⟩
      | some power_usage =>
        rcases hdef : extract_defense_targeted (dictGetStr htmlBodies (normalize_value rawId))
            (dictGetStr searchTexts (normalize_value rawId)) with ⟨dopt, dconf⟩
        rcases heri : extract_range_info (normalize_value (cellOr row (colMapGetD columns "Action" 5)))
            (dictGetStr htmlBodies (normalize_value rawId)) with ⟨rt, rv, aty, asz⟩
        cases hkw : kwSplit (normalize_value (cellOr row (colMapGetD columns "Keywords" 6))) with
        | none =>
          simp only [insertPowerRow, hid, hpt, hdef, heri, hkw]
          exact ⟨by rw [hT], hK, hD, hC, hN, hG, hL⟩
        | some keywords =>
          rcases extract_damage_types_cases σ1 σ2 h1 h2
              (normalize_value (cellOr row (colMapGetD columns "Keywords" 6)))
              (dictGetStr htmlBodies (normalize_value rawId))
              (dictGetStr searchTexts (normalize_value rawId)) with
            ⟨he1, he2⟩ | ⟨d1, s1, d2, s2, he1, he2, hdp, hsp⟩
          · simp only [insertPowerRow, hid, hpt, hdef, heri, hkw, he1, he2]
            exact ⟨by rw [hT], by rw [hK], hD, hC, hN, hG, hL⟩
          · rcases hec : extract_conditions (dictGetStr htmlBodies (normalize_value rawId))
                (dictGetStr searchTexts (normalize_value rawId)) with ⟨conds, condSrcs⟩
            have hdd : (σ1 d1).Perm (σ2 d2) :=
              ((h1 d1).trans hdp).trans (h2 d2).symm
            have hcp : (σ1 conds).Perm (σ2 conds) :=
              (h1 conds).trans (h2 conds).symm
            cases dopt with
            | none =>
              simp only [insertPowerRow, hid, hpt, hdef, heri, hkw, he1, he2, hec]
              refine ⟨by rw [hT], by rw [hK], ?_, ?_, hN, hG, ?_⟩
              · exact tagFold_perm _ hdd hD
              · exact tagFold_perm _ hcp hC
              · exact List.Perm.append (List.Perm.append hL (hsp.map _)) (List.Perm.refl _)
            | some d =>
              simp only [insertPowerRow, hid, hpt, hdef, heri, hkw, he1, he2, hec]
              refine ⟨by rw [hT], by rw [hK], ?_, ?_, hN, hG, ?_⟩
              · exact tagFold_perm _ hdd hD
              · exact tagFold_perm _ hcp hC
              · exact List.Perm.append (List.Perm.append (List.Perm.append hL (hsp.map _))
                  (List.Perm.refl _)) (List.Perm.refl _)
  | vnull => exact ⟨hT, hK, hD, hC, hN, hG, hL⟩
  | vbool b => exact ⟨hT, hK, hD, hC, hN, hG, hL⟩
  | vint n => exact ⟨hT, hK, hD, hC, hN, hG, hL⟩
  | vstr s => exact ⟨hT, hK, hD, hC, hN, hG, hL⟩
  | vobj o => exact ⟨hT, hK, hD, hC, hN, hG, hL⟩

/-- `insert_powers` preserves core agreement row by row. -/
theorem insert_powers_agrees (σ1 σ2 : List String → List String)
    (h1 : ∀ l, (σ1 l).Perm l) (h2 : ∀ l, (σ2 l).Perm l)
    (columns : List Val) (htmlBodies searchTexts : List (String × String)) :
    ∀ (rows : List Val) {st1 st2 : StoreCore}, CoreAgrees st1 st2 →
      CoreAgrees (insert_powers σ1 st1 columns rows htmlBodies searchTexts)
        (insert_powers σ2 st2 columns rows htmlBodies searchTexts) := by
  intro rows
  induction rows with
  | nil => intro st1 st2 hA; exact hA
  | cons r t ih =>
    intro st1 st2 hA
    exact ih (insertPowerRow_agrees σ1 σ2 h1 h2 columns htmlBodies searchTexts hA r)

/-- A generic-category row touches only the (set-order-independent) entity
tables, so it preserves core agreement. -/
theorem insertGenericRow_agrees (table_name : String) (columns : List Val)
    (htmlBodies searchTexts : List (String × String))
    (col_mapping : List (String × String)) {st1 st2 : StoreCore}
    (hA : CoreAgrees st1 st2) (rowV : Val) :
    CoreAgrees (insertGenericRow table_name columns htmlBodies searchTexts col_mapping st1 rowV)
      (insertGenericRow table_name columns htmlBodies searchTexts col_mapping st2 rowV) := by
  obtain ⟨hT, hK, hD, hC, hN, hG, hL⟩ := hA
  cases rowV with
  | vlist row => exact ⟨by simp only [insertGenericRow]; rw [hT], hK, hD, hC, hN, hG, hL⟩
  | vnull => exact ⟨hT, hK, hD, hC, hN, hG, hL⟩
  | vbool b => exact ⟨hT, hK, hD, hC, hN, hG, hL⟩
  | vint n => exact ⟨hT, hK, hD, hC, hN, hG, hL⟩
  | vstr s => exact ⟨hT, hK, hD, hC, hN, hG, hL⟩
  | vobj o => exact ⟨hT, hK, hD, hC, hN, hG, hL⟩

/-- `insert_generic` preserves core agreement. -/
theorem insert_generic_agrees (table_name : String) (columns : List Val)
    (htmlBodies searchTexts : List (String × String))
    (col_mapping : List (String × String)) :
    ∀ (rows : List Val) {st1 st2 : StoreCore}, CoreAgrees st1 st2 →
      CoreAgrees (insert_generic st1 table_name columns rows htmlBodies searchTexts col_mapping)
        (insert_generic st2 table_name columns rows htmlBodies searchTexts col_mapping) := by
  intro rows
  induction rows with
  | nil => intro st1 st2 hA; exact hA
  | cons r t ih =>
    intro st1 st2 hA
    exact ih (insertGenericRow_agrees table_name columns htmlBodies searchTexts col_mapping hA r)

/-- `processCategory` reduction: absent category. -/
theorem processCategory_skip (σ : List String → List String) (st : StoreCore) (n : Nat)
    (cat tbl : String) (inp : BuildInput) (hc : alookup inp.categories cat = none) :
    processCategory σ (st, n) (cat, tbl) inp = (st, n) := by
  simp [processCategory, hc]

/-- `processCategory` reduction: empty category. -/
theorem processCategory_empty (σ : List String → List String) (st : StoreCore) (n : Nat)
    (cat tbl : String) (inp : BuildInput) (ci : CategoryInput)
    (hc : alookup inp.categories cat = some ci) (he : ci.rows.isEmpty = true) :
    processCategory σ (st, n) (cat, tbl) inp = (st, n) := by
  simp [processCategory, hc, he]

/-- `processCategory` reduction: the power category. -/
theorem processCategory_power (σ : List String → List String) (st : StoreCore) (n : Nat)
    (tbl : String) (inp : BuildInput) (ci : CategoryInput)
    (hc : alookup inp.categories "power" = some ci) (he : ci.rows.isEmpty = false) :
    processCategory σ (st, n) ("power", tbl) inp =
      ({ insert_powers σ st ci.columns ci.rows ci.htmlBodies ci.searchTexts with
          categories := insertOrReplaceCat
            (insert_powers σ st ci.columns ci.rows ci.htmlBodies ci.searchTexts).categories
            "power" ci.rows.length tbl },
        n + ci.rows.length) := by
  simp [processCategory, hc, he]

/-- `processCategory` reduction: a non-power category with no generic mapping. -/
theorem processCategory_nomap (σ : List String → List String) (st : StoreCore) (n : Nat)
    (cat tbl : String) (inp : BuildInput) (ci : CategoryInput)
    (hc : alookup inp.categories cat = some ci) (he : ci.rows.isEmpty = false)
    (hp : ¬cat = "power") (hm : alookup generic_mappings tbl = none) :
    processCategory σ (st, n) (cat, tbl) inp =
      ({ st with categories := insertOrReplaceCat st.categories cat ci.rows.length tbl },
        n + ci.rows.length) := by
  simp [processCategory, hc, he, hp, hm]

/-- `processCategory` reduction: a non-power category with a generic mapping. -/
theorem processCategory_generic (σ : List String → List String) (st : StoreCore) (n : Nat)
    (cat tbl : String) (inp : BuildInput) (ci : CategoryInput)
    (mapping : List (String × String))
    (hc : alookup inp.categories cat = some ci) (he : ci.rows.isEmpty = false)
    (hp : ¬cat = "power") (hm : alookup generic_mappings tbl = some mapping) :
    processCategory σ (st, n) (cat, tbl) inp =
      ({ insert_generic st tbl ci.columns ci.rows ci.htmlBodies ci.searchTexts mapping with
          categories := insertOrReplaceCat
            (insert_generic st tbl ci.columns ci.rows ci.htmlBodies ci.searchTexts
              mapping).categories cat ci.rows.length tbl },
        n + ci.rows.length) := by
  simp [processCategory, hc, he, hp, hm]

/-- One step of the category loop preserves core agreement and the running
entry total. -/
theorem processCategory_agrees (σ1 σ2 : List String → List String)
    (h1 : ∀ l, (σ1 l).Perm l) (h2 : ∀ l, (σ2 l).Perm l)
    (entry : String × String) (inp : BuildInput) (p1 p2 : StoreCore × Nat)
    (hA : CoreAgrees p1.1 p2.1) (hn : p1.2 = p2.2) :
    CoreAgrees (processCategory σ1 p1 entry inp).1 (processCategory σ2 p2 entry inp).1 ∧
      (processCategory σ1 p1 entry inp).2 = (processCategory σ2 p2 entry inp).2 := by
  obtain ⟨s1, n1⟩ := p1
  obtain ⟨s2, n2⟩ := p2
  obtain ⟨cat, tbl⟩ := entry
  simp only at hA hn
  subst hn
  cases hc : alookup inp.categories cat with
  | none =>
    rw [processCategory_skip σ1 s1 n1 cat tbl inp hc, processCategory_skip σ2 s2 n1 cat tbl inp hc]
    exact ⟨hA, rfl⟩
  | some ci =>
    cases he : ci.rows.isEmpty with
    | true =>
      rw [processCategory_empty σ1 s1 n1 cat tbl inp ci hc he,
        processCategory_empty σ2 s2 n1 cat tbl inp ci hc he]
      exact ⟨hA, rfl⟩
    | false =>
      by_cases hp : cat = "power"
      · subst hp
        have hA1 := insert_powers_agrees σ1 σ2 h1 h2 ci.columns ci.htmlBodies ci.searchTexts
          ci.rows hA
        obtain ⟨iT, iK, iD, iC, iN, iG, iL⟩ := hA1
        rw [processCategory_power σ1 s1 n1 tbl inp ci hc he,
          processCategory_power σ2 s2 n1 tbl inp ci hc he]
        exact ⟨⟨iT, iK, iD, iC, iN, by rw [iG], iL⟩, rfl⟩
      · cases hm : alookup generic_mappings tbl with
        | none =>
          obtain ⟨aT, aK, aD, aC, aN, aG, aL⟩ := hA
          rw [processCategory_nomap σ1 s1 n1 cat tbl inp ci hc he hp hm,
            processCategory_nomap σ2 s2 n1 cat tbl inp ci hc he hp hm]
          exact ⟨⟨aT, aK, aD, aC, aN, by rw [aG], aL⟩, rfl⟩
        | some mapping =>
          have hA1 := insert_generic_agrees tbl ci.columns ci.htmlBodies ci.searchTexts
            mapping ci.rows hA
          obtain ⟨iT, iK, iD, iC, iN, iG, iL⟩ := hA1
          rw [processCategory_generic σ1 s1 n1 cat tbl inp ci mapping hc he hp hm,
            processCategory_generic σ2 s2 n1 cat tbl inp ci mapping hc he hp hm]
          exact ⟨⟨iT, iK, iD, iC, iN, by rw [iG], iL⟩, rfl⟩

/-- The whole category loop preserves core agreement and the total. -/
theorem categoryFold_agrees (σ1 σ2 : List String → List String)
    (h1 : ∀ l, (σ1 l).Perm l) (h2 : ∀ l, (σ2 l).Perm l) (inp : BuildInput) :
    ∀ (entries : List (String × String)) (p1 p2 : StoreCore × Nat),
      CoreAgrees p1.1 p2.1 → p1.2 = p2.2 →
      CoreAgrees ((entries.foldl (fun acc e => processCategory σ1 acc e inp) p1).1)
          ((entries.foldl (fun acc e => processCategory σ2 acc e inp) p2).1) ∧
        (entries.foldl (fun acc e => processCategory σ1 acc e inp) p1).2 =
          (entries.foldl (fun acc e => processCategory σ2 acc e inp) p2).2 := by
  intro entries
  induction entries with
  | nil => intro p1 p2 hA hn; exact ⟨hA, hn⟩
  | cons e t ih =>
    intro p1 p2 hA hn
    have hstep := processCategory_agrees σ1 σ2 h1 h2 e inp p1 p2 hA hn
    exact ih (processCategory σ1 p1 e inp) (processCategory σ2 p2 e inp) hstep.1 hstep.2

/-- The clock-free build contents of two runs agree up to set-iteration
order, with equal entry totals. -/
theorem buildContent_agrees (inp : BuildInput) (σ1 σ2 : List String → List String)
    (h1 : ∀ l, (σ1 l).Perm l) (h2 : ∀ l, (σ2 l).Perm l) :
    CoreAgrees (buildContent inp σ1).1 (buildContent inp σ2).1 ∧
      (buildContent inp σ1).2 = (buildContent inp σ2).2 := by
  have hfold := categoryFold_agrees σ1 σ2 h1 h2 inp category_table_map
    (initStoreCore, 0) (initStoreCore, 0)
    ⟨rfl, rfl, List.Perm.refl _, List.Perm.refl _, rfl, rfl, List.Perm.refl _⟩ rfl
  rcases hf1 : category_table_map.foldl (fun acc e => processCategory σ1 acc e inp)
      (initStoreCore, 0) with ⟨c1, u1⟩
  rcases hf2 : category_table_map.foldl (fun acc e => processCategory σ2 acc e inp)
      (initStoreCore, 0) with ⟨c2, u2⟩
  rw [hf1, hf2] at hfold
  obtain ⟨⟨gT, gK, gD, gC, gN, gG, gL⟩, gtot⟩ := hfold
  simp only at gtot
  constructor
  · simp only [buildContent, hf1, hf2, loadNameIndex]
    cases inp.nameIndexData with
    | none => exact ⟨gT, gK, gD, gC, gN, gG, gL⟩
    | some entries => exact ⟨gT, gK, gD, gC, by rw [gN], gG, gL⟩
  · simp only [buildContent, hf1, hf2]
    exact gtot

/-- A trivially empty source input. -/
def c4emptyInput : BuildInput := { categories := [], nameIndexData := none }

/-- C4 counterexample: the store records `datetime.now()` in the
`_meta.build_date` row (and `CURRENT_TIMESTAMP` in every parse-log row), so
two runs of the pipeline — whose clock readings necessarily differ — yield
stores that are not byte-identical, already on empty input and with the
set-iteration order held fixed. -/
theorem c4_counterexample_build_date_differs :
    build_database c4emptyInput "2024-01-01T00:00:00" (fun l => l) ≠
      build_database c4emptyInput "2024-01-01T00:00:01" (fun l => l) := by
  intro h
  exact absurd (congrArg Store.meta h) (by decide)

/-- C4 (amended): two runs of the pipeline on identical source input — with
arbitrary clock readings and arbitrary per-process set-iteration orders —
agree on all entity tables, the keyword tag table, the name index, the
category metadata and the entry total, and `_meta` agrees apart from the
build-date row; the set-derived damage-type and condition tag tables and
the parse-log rows (modulo their timestamps) agree up to permutation of
their rows; and the resolution audit computed over either resulting store
has identical outcome counts for every status. -/
theorem c4_deterministic_up_to_clock_and_set_order (inp : BuildInput) (t1 t2 : String)
    (σ1 σ2 : List String → List String)
    (h1 : ∀ l, (σ1 l).Perm l) (h2 : ∀ l, (σ2 l).Perm l) :
    (build_database inp t1 σ1).tables = (build_database inp t2 σ2).tables ∧
    (build_database inp t1 σ1).power_keywords = (build_database inp t2 σ2).power_keywords ∧
    (build_database inp t1 σ1).power_damage_types.Perm
      (build_database inp t2 σ2).power_damage_types ∧
    (build_database inp t1 σ1).power_conditions.Perm
      (build_database inp t2 σ2).power_conditions ∧
    (build_database inp t1 σ1).name_index = (build_database inp t2 σ2).name_index ∧
    (build_database inp t1 σ1).categories = (build_database inp t2 σ2).categories ∧
    ((build_database inp t1 σ1).parse_log.map Prod.fst).Perm
      ((build_database inp t2 σ2).parse_log.map Prod.fst) ∧
    (build_database inp t1 σ1).meta.filter (fun kv => kv.1 ≠ "build_date") =
      (build_database inp t2 σ2).meta.filter (fun kv => kv.1 ≠ "build_date") ∧
    (∀ (manual : List (String × String)) (g : GrantsDb) (s : String),
      statusCount (resolutionLog (compendiumOf (build_database inp t1 σ1)) manual g) s =
        statusCount (resolutionLog (compendiumOf (build_database inp t2 σ2)) manual g) s) := by
  have hagree := buildContent_agrees inp σ1 σ2 h1 h2
  rcases hb1 : buildContent inp σ1 with ⟨core1, total1⟩
  rcases hb2 : buildContent inp σ2 with ⟨core2, total2⟩
  rw [hb1, hb2] at hagree
  obtain ⟨⟨gT, gK, gD, gC, gN, gG, gL⟩, gtot⟩ := hagree
  simp only at gT gK gD gC gN gG gL gtot
  refine ⟨?_, ?_, ?_, ?_, ?_, ?_, ?_, ?_, ?_⟩
  · simp only [build_database, hb1, hb2]; exact gT
  · simp only [build_database, hb1, hb2]; exact gK
  · simp only [build_database, hb1, hb2]; exact gD
  · simp only [build_database, hb1, hb2]; exact gC
  · simp only [build_database, hb1, hb2]; exact gN
  · simp only [build_database, hb1, hb2]; exact gG
  · simp only [build_database, hb1, hb2, List.map_map]
    have hid1 : (Prod.fst ∘ fun r : ParseLogRow => (r, t1)) = id := rfl
    have hid2 : (Prod.fst ∘ fun r : ParseLogRow => (r, t2)) = id := rfl
    rw [hid1, hid2, List.map_id, List.map_id]
    exact gL
  · simp [build_database, hb1, hb2, gtot]
  · intro manual g s
    have hcomp : compendiumOf (build_database inp t1 σ1) =
        compendiumOf (build_database inp t2 σ2) := by
      simp only [compendiumOf, build_database, hb1, hb2]
      rw [gT, gN]
    rw [hcomp]

/-- C4 witness: the amended theorem applied at a concrete input with the
identity iteration order against the reversing one. -/
theorem c4_witness :
    (build_database c4emptyInput "2024-01-01T00:00:00" (fun l => l)).tables =
      (build_database c4emptyInput "2024-01-01T00:00:01" List.reverse).tables ∧
    (build_database c4emptyInput "2024-01-01T00:00:00" (fun l => l)).power_keywords =
      (build_database c4emptyInput "2024-01-01T00:00:01" List.reverse).power_keywords ∧
    (build_database c4emptyInput "2024-01-01T00:00:00" (fun l => l)).power_damage_types.Perm
      (build_database c4emptyInput "2024-01-01T00:00:01" List.reverse).power_damage_types ∧
    (build_database c4emptyInput "2024-01-01T00:00:00" (fun l => l)).power_conditions.Perm
      (build_database c4emptyInput "2024-01-01T00:00:01" List.reverse).power_conditions ∧
    (build_database c4emptyInput "2024-01-01T00:00:00" (fun l => l)).name_index =
      (build_database c4emptyInput "2024-01-01T00:00:01" List.reverse).name_index ∧
    (build_database c4emptyInput "2024-01-01T00:00:00" (fun l => l)).categories =
      (build_database c4emptyInput "2024-01-01T00:00:01" List.reverse).categories ∧
    ((build_database c4emptyInput "2024-01-01T00:00:00" (fun l => l)).parse_log.map
        Prod.fst).Perm
      ((build_database c4emptyInput "2024-01-01T00:00:01" List.reverse).parse_log.map
        Prod.fst) ∧
    (build_database c4emptyInput "2024-01-01T00:00:00" (fun l => l)).meta.filter
        (fun kv => kv.1 ≠ "build_date") =
      (build_database c4emptyInput "2024-01-01T00:00:01" List.reverse).meta.filter
        (fun kv => kv.1 ≠ "build_date") ∧
    (∀ (manual : List (String × String)) (g : GrantsDb) (s : String),
      statusCount (resolutionLog (compendiumOf
          (build_database c4emptyInput "2024-01-01T00:00:00" (fun l => l))) manual g) s =
        statusCount (resolutionLog (compendiumOf
          (build_database c4emptyInput "2024-01-01T00:00:01" List.reverse)) manual g) s) :=
  c4_deterministic_up_to_clock_and_set_order c4emptyInput
    "2024-01-01T00:00:00" "2024-01-01T00:00:01" (fun l => l) List.reverse
    (fun l => List.Perm.refl l) (fun l => l.reverse_perm)

end Compendium4e
